import Mathlib

/-!
Shallow embedding of the decision engine of the logistics-coordination
agent: `src/agent/decision_engine.py`, together with the delay-issue
detection in `src/agent/core.py` that drives its rerouting entry point.

Conventions.  Python floats are modelled as exact rationals (`ℚ`).
Datetimes are rational hour counts on one global timeline, so
`timedelta(hours = h)` is `+ h`, `timedelta(minutes = m)` is `+ m / 60`,
and the calendar date of a timestamp `t` is `⌊t / 24⌋`.  Python `dict`s
are insertion-ordered association lists whose keys are unique; lookup is
first-match.  Python's `int()` on a float truncates toward zero.
-/

namespace Logistics

/-- Insertion-ordered string-keyed dictionary (a Python `dict`). -/
abbrev Dict (α : Type) := List (String × α)

/-- First-match lookup: `d[k]` (as `some`) or `k not in d` (as `none`). -/
def lookup {α : Type} (d : Dict α) (k : String) : Option α :=
  (d.find? (fun p => p.1 == k)).map Prod.snd

/-- Python `int()` on a float: truncation toward zero. -/
def pyInt (q : ℚ) : ℤ :=
  if 0 ≤ q then ⌊q⌋ else ⌈q⌉

/-- `models/shipment.py`, `ShipmentStatus`. -/
inductive ShipmentStatus where
  | pending
  | preparing
  | in_transit
  | delayed
  | rerouting
  | on_hold
  | delivered
  | cancelled
  deriving DecidableEq, Repr

/-- `models/inventory.py`, `InventoryItem` (the fields the engine reads). -/
structure InventoryItem where
  id : String
  name : String
  category : String
  quantity : ℤ
  unit : String
  min_threshold : ℤ
  max_threshold : ℤ
  deriving DecidableEq, Repr

/-- `models/inventory.py`, `Warehouse` (the fields the engine reads). -/
structure Warehouse where
  id : String
  name : String
  location : String
  capacity : ℤ
  items : Dict InventoryItem
  deriving DecidableEq, Repr

/-- `models/route.py`, `RouteStatus` (the engine only reads `is_disrupted`). -/
structure RouteStatus where
  route_id : String
  is_disrupted : Bool
  deriving DecidableEq, Repr

/-- `models/shipment.py`, `Shipment` (the fields the engine reads);
`estimated_arrival` is `none` for Python `None`. -/
structure Shipment where
  id : String
  origin : String
  destination : String
  status : ShipmentStatus
  priority : ℤ
  route : String
  estimated_arrival : Option ℚ
  deriving DecidableEq, Repr

/-- An inventory-shortage alert dict, as built by
`core.py  _check_inventory_alerts` and consumed by
`evaluate_inventory_replenishment`. -/
structure InventoryAlert where
  warehouse_id : String
  item_id : String
  item_name : String
  current_quantity : ℤ
  min_threshold : ℤ
  unit : String
  severity : String
  deriving DecidableEq, Repr

/-- One entry of the `items` list of an `inventory_transfer` decision. -/
structure TransferItem where
  id : String
  name : String
  quantity : ℚ
  unit : String
  deriving DecidableEq, Repr

/-- An `inventory_transfer` decision dict (emitted both by the
replenishment planner and by the rebalancer). -/
structure InventoryTransferDecision where
  source_warehouse : String
  destination_warehouse : String
  items : List TransferItem
  reason : String
  priority : ℤ
  deriving DecidableEq, Repr

/-- `decision_engine.py  _calculate_distance`: hardcoded symmetric pair
table, defaulting to the large sentinel 1000.0 for unknown pairs. -/
def calculate_distance (origin_id destination_id : String) : ℚ :=
  let distance_matrix : List ((String × String) × ℚ) :=
    [ (("warehouse_1", "warehouse_2"), 150)
    , (("warehouse_1", "warehouse_3"), 320)
    , (("warehouse_1", "warehouse_4"), 450)
    , (("warehouse_2", "warehouse_1"), 150)
    , (("warehouse_2", "warehouse_3"), 180)
    , (("warehouse_2", "warehouse_4"), 300)
    , (("warehouse_3", "warehouse_1"), 320)
    , (("warehouse_3", "warehouse_2"), 180)
    , (("warehouse_3", "warehouse_4"), 200)
    , (("warehouse_4", "warehouse_1"), 450)
    , (("warehouse_4", "warehouse_2"), 300)
    , (("warehouse_4", "warehouse_3"), 200)
    ]
  match distance_matrix.find?
      (fun p => p.1.1 == origin_id && p.1.2 == destination_id) with
  | some p => p.2
  | none => 1000

/-- The per-source record built by `_find_inventory_sources` (the
`warehouse` field of the Python dict is never read afterwards and is
dropped). -/
structure SourceInfo where
  excess_quantity : ℤ
  distance_to_destination : ℚ
  deriving DecidableEq, Repr

/-- `decision_engine.py  _find_inventory_sources`: every warehouse other
than the destination that stocks the item with positive excess
`quantity - min_threshold`. -/
def find_inventory_sources (warehouses : Dict Warehouse)
    (item_id destination_id : String) : Dict SourceInfo :=
  warehouses.filterMap fun p =>
    if p.1 == destination_id then none
    else
      match lookup p.2.items item_id with
      | none => none
      | some item =>
          let excess_quantity := item.quantity - item.min_threshold
          if excess_quantity > 0 then
            some (p.1, ⟨excess_quantity, calculate_distance p.1 destination_id⟩)
          else none

/-- The sort key of `_select_best_inventory_source`: Python tuple order on
`(distance_to_destination, -excess_quantity)`. -/
def sourceLe (a b : String × SourceInfo) : Bool :=
  decide (a.2.distance_to_destination < b.2.distance_to_destination)
  || (decide (a.2.distance_to_destination = b.2.distance_to_destination)
      && decide (b.2.excess_quantity ≤ a.2.excess_quantity))

/-- `decision_engine.py  _select_best_inventory_source`: stable sort by
`(distance ascending, excess descending)`, then the first key (Python
returns `None` on an empty candidate dict). -/
def select_best_inventory_source (potential_sources : Dict SourceInfo) :
    Option String :=
  ((potential_sources.mergeSort sourceLe).head?).map Prod.fst

/-- `decision_engine.py  evaluate_inventory_replenishment`.  For every
alert with a candidate source: transfer toward 150% of the minimum
threshold, capped by the chosen source's excess; priority 8 on a
high-severity alert, else 5.  The inner `lookup` of the chosen source
cannot miss (the chosen key is drawn from `potential_sources`); the
`none` fallback mirrors that unreachability. -/
def evaluate_inventory_replenishment (warehouses : Dict Warehouse)
    (alerts : List InventoryAlert) : List InventoryTransferDecision :=
  alerts.filterMap fun alert =>
    let potential_sources :=
      find_inventory_sources warehouses alert.item_id alert.warehouse_id
    match select_best_inventory_source potential_sources with
    | none => none
    | some best_source =>
        match lookup potential_sources best_source with
        | none => none
        | some info =>
            let target_quantity : ℚ := (alert.min_threshold : ℚ) * (3 / 2)
            let transfer_quantity : ℚ :=
              target_quantity - (alert.current_quantity : ℚ)
            let available_excess : ℚ := (info.excess_quantity : ℚ)
            let transfer_quantity :=
              if transfer_quantity > available_excess then available_excess
              else transfer_quantity
            some
              { source_warehouse := best_source
              , destination_warehouse := alert.warehouse_id
              , items :=
                  [⟨alert.item_id, alert.item_name, transfer_quantity, alert.unit⟩]
              , reason := "inventory_below_threshold"
              , priority := if alert.severity == "high" then 8 else 5 }

/-! Association-list dictionary lemmas. -/

theorem lookup_mem {α : Type} {d : Dict α} {k : String} {v : α}
    (h : lookup d k = some v) : (k, v) ∈ d := by
  unfold lookup at h
  rw [Option.map_eq_some'] at h
  obtain ⟨p, hfind, hsnd⟩ := h
  have hp := List.find?_some hfind
  have hm := List.mem_of_find?_eq_some hfind
  simp only [beq_iff_eq] at hp
  cases p with
  | mk a b =>
      dsimp only at hp hsnd
      subst hp
      subst hsnd
      exact hm

theorem lookup_isSome_of_mem {α : Type} {d : Dict α} {k : String} {v : α}
    (h : (k, v) ∈ d) : ∃ w, lookup d k = some w := by
  unfold lookup
  cases hf : d.find? (fun p => p.1 == k) with
  | none =>
      exfalso
      have := List.find?_eq_none.mp hf (k, v) h
      simp at this
  | some p => exact ⟨p.2, by simp⟩

/-! Characterization of the replenishment planner's candidate sources. -/

theorem mem_find_inventory_sources {warehouses : Dict Warehouse}
    {item_id destination_id wid : String} {info : SourceInfo}
    (h : (wid, info) ∈ find_inventory_sources warehouses item_id destination_id) :
    ∃ (w : Warehouse) (item : InventoryItem),
      (wid, w) ∈ warehouses ∧ wid ≠ destination_id ∧
      lookup w.items item_id = some item ∧
      info.excess_quantity = item.quantity - item.min_threshold ∧
      0 < item.quantity - item.min_threshold ∧
      info.distance_to_destination = calculate_distance wid destination_id := by
  unfold find_inventory_sources at h
  rw [List.mem_filterMap] at h
  obtain ⟨⟨wid', w⟩, hmem, hf⟩ := h
  dsimp only at hf
  split at hf
  · exact absurd hf (by simp)
  next hne =>
    cases hlk : lookup w.items item_id with
    | none => rw [hlk] at hf; exact absurd hf (by simp)
    | some item =>
        rw [hlk] at hf
        dsimp only at hf
        split at hf
        next hpos =>
          obtain ⟨h1, h2⟩ := Prod.mk.injEq .. ▸ Option.some.injEq .. ▸ hf
          subst h1
          refine ⟨w, item, hmem, by simpa using hne, hlk, ?_, hpos, ?_⟩
          · rw [← h2]
          · rw [← h2]
        · exact absurd hf (by simp)

theorem select_best_inventory_source_mem {ps : Dict SourceInfo} {best : String}
    (h : select_best_inventory_source ps = some best) :
    ∃ info, (best, info) ∈ ps := by
  unfold select_best_inventory_source at h
  rw [Option.map_eq_some'] at h
  obtain ⟨p, hh, hfst⟩ := h
  have hp : p ∈ ps.mergeSort sourceLe := List.mem_of_mem_head? (by simp [hh])
  rw [List.mem_mergeSort] at hp
  cases p with
  | mk a b =>
      dsimp only at hfst
      subst hfst
      exact ⟨b, hp⟩

theorem if_gt_eq_min (a b : ℚ) : (if a > b then b else a) = min a b := by
  rcases le_or_lt a b with h | h
  · rw [if_neg (not_lt.mpr h), min_eq_left h]
  · rw [if_pos h, min_eq_right h.le]

/-- C2.  For every shortage alert with at least one candidate source, the
emitted transfer decision's item quantity is
`min (1.5 * min_threshold - current_quantity)
     (selected source's quantity - its min_threshold)`. -/
theorem replenishment_transfer_quantity
    (warehouses : Dict Warehouse) (alerts : List InventoryAlert)
    (alert : InventoryAlert) (best : String)
    (halert : alert ∈ alerts)
    (hbest : select_best_inventory_source
        (find_inventory_sources warehouses alert.item_id alert.warehouse_id)
        = some best) :
    ∃ (w : Warehouse) (item : InventoryItem) (d : InventoryTransferDecision),
      d ∈ evaluate_inventory_replenishment warehouses alerts ∧
      (best, w) ∈ warehouses ∧
      lookup w.items alert.item_id = some item ∧
      d.source_warehouse = best ∧
      d.destination_warehouse = alert.warehouse_id ∧
      d.items = [⟨alert.item_id, alert.item_name,
          min ((alert.min_threshold : ℚ) * (3 / 2) - (alert.current_quantity : ℚ))
              ((item.quantity : ℚ) - (item.min_threshold : ℚ)),
          alert.unit⟩] := by
  obtain ⟨info0, hinfo0⟩ := select_best_inventory_source_mem hbest
  obtain ⟨info, hlook⟩ := lookup_isSome_of_mem hinfo0
  obtain ⟨w, item, hw, _, hitem, hexcess, hpos, _⟩ :=
    mem_find_inventory_sources (lookup_mem hlook)
  refine ⟨w, item,
    ⟨best, alert.warehouse_id,
      [⟨alert.item_id, alert.item_name,
        if ((alert.min_threshold : ℚ) * (3 / 2) - (alert.current_quantity : ℚ))
            > (info.excess_quantity : ℚ)
        then (info.excess_quantity : ℚ)
        else (alert.min_threshold : ℚ) * (3 / 2) - (alert.current_quantity : ℚ),
        alert.unit⟩],
      "inventory_below_threshold",
      if alert.severity == "high" then 8 else 5⟩, ?_, hw, hitem,
    rfl, rfl, ?_⟩
  · unfold evaluate_inventory_replenishment
    rw [List.mem_filterMap]
    refine ⟨alert, halert, ?_⟩
    simp only [hbest, hlook]
  · have hcast : (info.excess_quantity : ℚ)
        = (item.quantity : ℚ) - (item.min_threshold : ℚ) := by
      rw [hexcess]; push_cast; ring
    simp only [if_gt_eq_min, hcast]

/-- C9.  When the alerted item already sits at or above 150% of its
minimum threshold but a candidate source exists, the planner still emits
a transfer decision, whose item quantity
`1.5 * min_threshold - current_quantity` is zero or negative (no
positivity guard is applied). -/
theorem replenishment_no_positivity_guard
    (warehouses : Dict Warehouse) (alerts : List InventoryAlert)
    (alert : InventoryAlert) (best : String)
    (halert : alert ∈ alerts)
    (hbest : select_best_inventory_source
        (find_inventory_sources warehouses alert.item_id alert.warehouse_id)
        = some best)
    (hover : (alert.min_threshold : ℚ) * (3 / 2) ≤ (alert.current_quantity : ℚ)) :
    ∃ d ∈ evaluate_inventory_replenishment warehouses alerts,
      d.source_warehouse = best ∧
      d.destination_warehouse = alert.warehouse_id ∧
      d.items = [⟨alert.item_id, alert.item_name,
          (alert.min_threshold : ℚ) * (3 / 2) - (alert.current_quantity : ℚ),
          alert.unit⟩] ∧
      (alert.min_threshold : ℚ) * (3 / 2) - (alert.current_quantity : ℚ) ≤ 0 := by
  obtain ⟨info0, hinfo0⟩ := select_best_inventory_source_mem hbest
  obtain ⟨info, hlook⟩ := lookup_isSome_of_mem hinfo0
  obtain ⟨w, item, hw, _, hitem, hexcess, hpos, _⟩ :=
    mem_find_inventory_sources (lookup_mem hlook)
  have hexq : (0 : ℚ) < (info.excess_quantity : ℚ) := by
    rw [hexcess]; exact_mod_cast hpos
  have htq : (alert.min_threshold : ℚ) * (3 / 2) - (alert.current_quantity : ℚ) ≤ 0 :=
    by linarith
  have hnotgt : ¬ ((alert.min_threshold : ℚ) * (3 / 2) - (alert.current_quantity : ℚ)
      > (info.excess_quantity : ℚ)) := by
    push_neg
    linarith
  refine ⟨⟨best, alert.warehouse_id,
    [⟨alert.item_id, alert.item_name,
      (alert.min_threshold : ℚ) * (3 / 2) - (alert.current_quantity : ℚ),
      alert.unit⟩],
    "inventory_below_threshold",
    if alert.severity == "high" then 8 else 5⟩, ?_, rfl, rfl, rfl, htq⟩
  unfold evaluate_inventory_replenishment
  rw [List.mem_filterMap]
  refine ⟨alert, halert, ?_⟩
  simp only [hbest, hlook, if_neg hnotgt]

/-! Concrete fixtures for witnesses. -/

/-- A destination warehouse short on water. -/
def whShort : Warehouse :=
  ⟨"warehouse_1", "Alpha", "loc_a", 1000,
    [("water", ⟨"water", "Water", "fluids", 50, "liters", 100, 200⟩)]⟩

/-- A source warehouse holding surplus water. -/
def whSurplus : Warehouse :=
  ⟨"warehouse_2", "Beta", "loc_b", 1000,
    [("water", ⟨"water", "Water", "fluids", 180, "liters", 100, 200⟩)]⟩

def demoWarehouses : Dict Warehouse :=
  [("warehouse_1", whShort), ("warehouse_2", whSurplus)]

def demoAlert : InventoryAlert :=
  ⟨"warehouse_1", "water", "Water", 50, 100, "liters", "medium"⟩

/-- An alert whose current quantity already exceeds 150% of the minimum. -/
def demoAlertHigh : InventoryAlert :=
  ⟨"warehouse_1", "water", "Water", 160, 100, "liters", "medium"⟩

theorem replenishment_transfer_quantity_witness :
    ∃ (w : Warehouse) (item : InventoryItem) (d : InventoryTransferDecision),
      d ∈ evaluate_inventory_replenishment demoWarehouses [demoAlert] ∧
      ("warehouse_2", w) ∈ demoWarehouses ∧
      lookup w.items demoAlert.item_id = some item ∧
      d.source_warehouse = "warehouse_2" ∧
      d.destination_warehouse = demoAlert.warehouse_id ∧
      d.items = [⟨demoAlert.item_id, demoAlert.item_name,
          min ((demoAlert.min_threshold : ℚ) * (3 / 2)
                - (demoAlert.current_quantity : ℚ))
              ((item.quantity : ℚ) - (item.min_threshold : ℚ)),
          demoAlert.unit⟩] :=
  replenishment_transfer_quantity demoWarehouses [demoAlert] demoAlert "warehouse_2"
    (List.mem_singleton.mpr rfl)
    (by simp [select_best_inventory_source, find_inventory_sources, lookup,
      demoWarehouses, demoAlert, whShort, whSurplus, List.mergeSort_singleton,
      calculate_distance])

theorem replenishment_no_positivity_guard_witness :
    ∃ d ∈ evaluate_inventory_replenishment demoWarehouses [demoAlertHigh],
      d.source_warehouse = "warehouse_2" ∧
      d.destination_warehouse = demoAlertHigh.warehouse_id ∧
      d.items = [⟨demoAlertHigh.item_id, demoAlertHigh.item_name,
          (demoAlertHigh.min_threshold : ℚ) * (3 / 2)
            - (demoAlertHigh.current_quantity : ℚ),
          demoAlertHigh.unit⟩] ∧
      (demoAlertHigh.min_threshold : ℚ) * (3 / 2)
        - (demoAlertHigh.current_quantity : ℚ) ≤ 0 :=
  replenishment_no_positivity_guard demoWarehouses [demoAlertHigh] demoAlertHigh
    "warehouse_2"
    (List.mem_singleton.mpr rfl)
    (by simp [select_best_inventory_source, find_inventory_sources, lookup,
      demoWarehouses, demoAlertHigh, whShort, whSurplus, List.mergeSort_singleton,
      calculate_distance])
    (by norm_num [demoAlertHigh])

/-! Rerouting: `core.py  _check_shipment_issues` and
`decision_engine.py  evaluate_shipment_rerouting` with its helpers. -/

/-- A shipment-delay issue dict, as built by `core.py  _check_shipment_issues`
(of its fields, the engine reads `shipment_id` and `delay_minutes`). -/
structure DelayIssue where
  shipment_id : String
  delay_minutes : ℚ
  deriving DecidableEq, Repr

/-- One alternative route as produced by `_find_alternative_routes`. -/
structure AltRoute where
  route_id : String
  estimated_duration_hours : ℚ
  estimated_arrival : ℚ
  distance_km : ℚ
  fuel_consumption_liters : ℚ
  deriving DecidableEq, Repr

/-- A rerouting decision dict. -/
structure RerouteDecision where
  shipment_id : String
  old_route : String
  new_route : String
  reason : String
  new_eta : ℚ
  deriving DecidableEq, Repr

/-- `core.py  _check_shipment_issues`: one delay issue per active shipment
that is not already `rerouting`/`on_hold` and whose estimated arrival lies
in the past; `delay_minutes = (now - eta) in minutes`. -/
def check_shipment_issues (now : ℚ) (active_shipments : Dict Shipment) :
    List DelayIssue :=
  active_shipments.filterMap fun p =>
    if p.2.status = .rerouting ∨ p.2.status = .on_hold then none
    else
      match p.2.estimated_arrival with
      | none => none
      | some eta =>
          if eta < now then some ⟨p.1, (now - eta) * 60⟩ else none

/-- `decision_engine.py  _find_alternative_routes`: three dummy
alternatives for the pair, minus the current route.  `now` stands for
`datetime.now()`. -/
def find_alternative_routes (now : ℚ)
    (origin destination current_route : String) : List AltRoute :=
  let alternatives : List AltRoute :=
    [ ⟨"route_" ++ origin ++ "_" ++ destination ++ "_alt1", 17/2, now + 17/2, 320, 95⟩
    , ⟨"route_" ++ origin ++ "_" ++ destination ++ "_alt2", 46/5, now + 46/5, 350, 105⟩
    , ⟨"route_" ++ origin ++ "_" ++ destination ++ "_alt3", 10, now + 10, 380, 115⟩ ]
  alternatives.filter (fun route => route.route_id != current_route)

/-- The `is_disrupted` read pattern used throughout the engine:
look the route up in the conditions map, default `False` when absent. -/
def is_disrupted_in (route_conditions : Dict RouteStatus) (route_id : String) :
    Bool :=
  match lookup route_conditions route_id with
  | some rs => rs.is_disrupted
  | none => false

/-- Sort key for priority ≥ 8: estimated duration only. -/
def durLe (a b : AltRoute) : Bool :=
  decide (a.estimated_duration_hours ≤ b.estimated_duration_hours)

/-- Sort key for priority 5-7: `(duration, fuel)` in Python tuple order. -/
def durFuelLe (a b : AltRoute) : Bool :=
  decide (a.estimated_duration_hours < b.estimated_duration_hours)
  || (decide (a.estimated_duration_hours = b.estimated_duration_hours)
      && decide (a.fuel_consumption_liters ≤ b.fuel_consumption_liters))

/-- Sort key for priority < 5: fuel consumption only. -/
def fuelLe (a b : AltRoute) : Bool :=
  decide (a.fuel_consumption_liters ≤ b.fuel_consumption_liters)

/-- The filtering step of `_select_best_route`: drop routes flagged
disrupted in the conditions map. -/
def valid_routes_of (alternative_routes : List AltRoute)
    (route_conditions : Dict RouteStatus) : List AltRoute :=
  alternative_routes.filter
    (fun route => !(is_disrupted_in route_conditions route.route_id))

/-- The fallback step of `_select_best_route`: if filtering emptied the
set, fall back to all alternatives. -/
def fallback_valid_routes (alternative_routes : List AltRoute)
    (route_conditions : Dict RouteStatus) : List AltRoute :=
  if (valid_routes_of alternative_routes route_conditions).isEmpty
  then alternative_routes
  else valid_routes_of alternative_routes route_conditions

/-- The ranking step of `_select_best_route`, by shipment priority tier. -/
def sort_routes_for_priority (shipment_priority : ℤ) (routes : List AltRoute) :
    List AltRoute :=
  if shipment_priority ≥ 8 then routes.mergeSort durLe
  else if shipment_priority ≥ 5 then routes.mergeSort durFuelLe
  else routes.mergeSort fuelLe

/-- `decision_engine.py  _select_best_route`: filter, fall back, rank,
take the first.  Python indexes `sorted_routes[0]`, an error on an empty
list; callers only invoke it on a non-empty list, and the `none` result
mirrors that unreachable case. -/
def select_best_route (alternative_routes : List AltRoute)
    (shipment_priority : ℤ) (route_conditions : Dict RouteStatus) :
    Option (String × ℚ) :=
  ((sort_routes_for_priority shipment_priority
      (fallback_valid_routes alternative_routes route_conditions)).head?).map
    (fun route => (route.route_id, route.estimated_arrival))

/-- `decision_engine.py  evaluate_shipment_rerouting`.
`reroute_delay_threshold_minutes` is the configured threshold
(`AgentConfig`, default 60). -/
def evaluate_shipment_rerouting (now : ℚ) (active_shipments : Dict Shipment)
    (issues : List DelayIssue) (route_conditions : Dict RouteStatus)
    (reroute_delay_threshold_minutes : ℚ) : List RerouteDecision :=
  issues.filterMap fun issue =>
    match lookup active_shipments issue.shipment_id with
    | none => none
    | some shipment =>
        let current_route := shipment.route
        let is_disrupted := is_disrupted_in route_conditions current_route
        let needs_rerouting :=
          is_disrupted
          || decide (issue.delay_minutes > reroute_delay_threshold_minutes)
        let reason :=
          if is_disrupted then "route_disruption" else "significant_delay"
        if needs_rerouting then
          let alternative_routes :=
            find_alternative_routes now shipment.origin shipment.destination
              current_route
          if alternative_routes.isEmpty then none
          else
            match select_best_route alternative_routes shipment.priority
                route_conditions with
            | none => none
            | some (new_route, new_eta) =>
                some ⟨issue.shipment_id, current_route, new_route, reason, new_eta⟩
        else none

theorem mem_sort_routes_for_priority {p : ℤ} {routes : List AltRoute}
    {r : AltRoute} (h : r ∈ sort_routes_for_priority p routes) : r ∈ routes := by
  unfold sort_routes_for_priority at h
  split at h
  · exact List.mem_mergeSort.mp h
  · split at h
    · exact List.mem_mergeSort.mp h
    · exact List.mem_mergeSort.mp h

theorem mem_fallback_valid_routes {alts : List AltRoute}
    {rc : Dict RouteStatus} {r : AltRoute}
    (h : r ∈ fallback_valid_routes alts rc) :
    r ∈ alts ∧
      (is_disrupted_in rc r.route_id = true →
        ∀ r' ∈ alts, is_disrupted_in rc r'.route_id = true) := by
  unfold fallback_valid_routes at h
  split at h
  next hempty =>
    refine ⟨h, fun _ r' hr' => ?_⟩
    rw [List.isEmpty_iff] at hempty
    have := List.filter_eq_nil_iff.mp hempty r' hr'
    simpa using this
  next hne =>
    rw [valid_routes_of, List.mem_filter] at h
    refine ⟨h.1, fun hdis => ?_⟩
    exact absurd hdis (by simpa using h.2)

theorem select_best_route_spec {alts : List AltRoute} {p : ℤ}
    {rc : Dict RouteStatus} {nr : String} {eta : ℚ}
    (h : select_best_route alts p rc = some (nr, eta)) :
    ∃ r ∈ alts, r.route_id = nr ∧ r.estimated_arrival = eta ∧
      (is_disrupted_in rc nr = true →
        ∀ r' ∈ alts, is_disrupted_in rc r'.route_id = true) := by
  unfold select_best_route at h
  rw [Option.map_eq_some'] at h
  obtain ⟨r, hhead, hpair⟩ := h
  have hinj : r.route_id = nr ∧ r.estimated_arrival = eta := by
    constructor
    · exact congrArg Prod.fst hpair
    · exact congrArg Prod.snd hpair
  have hmemsorted : r ∈ sort_routes_for_priority p (fallback_valid_routes alts rc) :=
    List.mem_of_mem_head? (by simp [hhead])
  have hr : r ∈ fallback_valid_routes alts rc :=
    mem_sort_routes_for_priority hmemsorted
  obtain ⟨hmem, hdis⟩ := mem_fallback_valid_routes hr
  exact ⟨r, hmem, hinj.1, hinj.2, fun hd => hdis (hinj.1 ▸ hd)⟩

/-- C5.  Every emitted reroute decision picks a `new_route` different from
`old_route`, and picks a route flagged disrupted only when every
alternative for the shipment's pair was flagged disrupted (the fallback
path). -/
theorem reroute_decision_safety
    (now : ℚ) (active : Dict Shipment) (issues : List DelayIssue)
    (rc : Dict RouteStatus) (threshold : ℚ) (d : RerouteDecision)
    (hd : d ∈ evaluate_shipment_rerouting now active issues rc threshold) :
    d.new_route ≠ d.old_route ∧
    ∃ issue ∈ issues, ∃ sh,
      lookup active issue.shipment_id = some sh ∧
      d.shipment_id = issue.shipment_id ∧
      d.old_route = sh.route ∧
      (is_disrupted_in rc d.new_route = true →
        ∀ r ∈ find_alternative_routes now sh.origin sh.destination sh.route,
          is_disrupted_in rc r.route_id = true) := by
  unfold evaluate_shipment_rerouting at hd
  rw [List.mem_filterMap] at hd
  obtain ⟨issue, hiss, hf⟩ := hd
  cases hlk : lookup active issue.shipment_id with
  | none => rw [hlk] at hf; exact absurd hf (by simp)
  | some sh =>
      rw [hlk] at hf
      dsimp only at hf
      split at hf
      · split at hf
        · exact absurd hf (by simp)
        · cases hsel : select_best_route
              (find_alternative_routes now sh.origin sh.destination sh.route)
              sh.priority rc with
          | none => rw [hsel] at hf; exact absurd hf (by simp)
          | some pr =>
              obtain ⟨nr, eta⟩ := pr
              rw [hsel] at hf
              dsimp only at hf
              have hdval := Option.some.inj hf
              obtain ⟨r, hrmem, hrid, _, hsafe⟩ := select_best_route_spec hsel
              have hne : r.route_id ≠ sh.route := by
                unfold find_alternative_routes at hrmem
                rw [List.mem_filter] at hrmem
                simpa using hrmem.2
              constructor
              · rw [← hdval]
                dsimp only
                rw [← hrid]
                exact hne
              · refine ⟨issue, hiss, sh, hlk, ?_, ?_, ?_⟩
                · rw [← hdval]
                · rw [← hdval]
                · rw [← hdval]
                  dsimp only
                  rw [← hrid]
                  intro hdis
                  exact hsafe (hrid ▸ hdis)
      · exact absurd hf (by simp)

/-- Helper: every reroute decision's `shipment_id` is the id of one of the
triggering issues. -/
theorem reroute_decision_source {now : ℚ} {active : Dict Shipment}
    {issues : List DelayIssue} {rc : Dict RouteStatus} {threshold : ℚ}
    {d : RerouteDecision}
    (hd : d ∈ evaluate_shipment_rerouting now active issues rc threshold) :
    ∃ issue ∈ issues, d.shipment_id = issue.shipment_id := by
  unfold evaluate_shipment_rerouting at hd
  rw [List.mem_filterMap] at hd
  obtain ⟨issue, hiss, hf⟩ := hd
  refine ⟨issue, hiss, ?_⟩
  cases hlk : lookup active issue.shipment_id with
  | none => rw [hlk] at hf; exact absurd hf (by simp)
  | some sh =>
      rw [hlk] at hf
      dsimp only at hf
      split at hf
      · split at hf
        · exact absurd hf (by simp)
        · cases hsel : select_best_route
              (find_alternative_routes now sh.origin sh.destination sh.route)
              sh.priority rc with
          | none => rw [hsel] at hf; exact absurd hf (by simp)
          | some pr =>
              obtain ⟨nr, eta⟩ := pr
              rw [hsel] at hf
              dsimp only at hf
              have := Option.some.inj hf
              rw [← this]
      · exact absurd hf (by simp)

theorem lookup_eq_of_mem_nodup {α : Type} {d : Dict α}
    (hnd : (d.map Prod.fst).Nodup) {k : String} {v w : α}
    (hmem : (k, v) ∈ d) (hlk : lookup d k = some w) : v = w := by
  induction d with
  | nil => cases hmem
  | cons p rest ih =>
      obtain ⟨a, b⟩ := p
      simp only [List.map_cons, List.nodup_cons] at hnd
      rcases List.mem_cons.mp hmem with heq | htail
      · injection heq with h1 h2
        subst h1
        subst h2
        unfold lookup at hlk
        rw [List.find?_cons_of_pos _ (by simp)] at hlk
        simpa using hlk
      · have hk : k ∈ rest.map Prod.fst := List.mem_map.mpr ⟨(k, v), htail, rfl⟩
        by_cases hak : a = k
        · exact absurd (hak ▸ hk) hnd.1
        · unfold lookup at hlk
          rw [List.find?_cons_of_neg _ (by simpa using hak)] at hlk
          exact ih hnd.2 htail hlk

/-- C1 (amended).  `evaluate_shipment_rerouting` itself performs no status
check; the skip of `rerouting`/`on_hold` shipments happens one stage
earlier, in `core.py  _check_shipment_issues`, which emits no delay issue
for them — so the pipeline as driven by `_check_shipment_issues` emits no
reroute decision for such a shipment. -/
theorem reroute_skip_performed_by_issue_detection
    (now : ℚ) (active : Dict Shipment) (rc : Dict RouteStatus) (threshold : ℚ)
    (hnd : (active.map Prod.fst).Nodup) (sid : String) (sh : Shipment)
    (hlk : lookup active sid = some sh)
    (hst : sh.status = ShipmentStatus.rerouting ∨
      sh.status = ShipmentStatus.on_hold) :
    ∀ d ∈ evaluate_shipment_rerouting now active
        (check_shipment_issues now active) rc threshold,
      d.shipment_id ≠ sid := by
  intro d hd heq
  obtain ⟨issue, hiss, hdid⟩ := reroute_decision_source hd
  unfold check_shipment_issues at hiss
  rw [List.mem_filterMap] at hiss
  obtain ⟨⟨sid', sh'⟩, hmem, hf⟩ := hiss
  dsimp only at hf
  split at hf
  · exact absurd hf (by simp)
  next hskip =>
    cases heta : sh'.estimated_arrival with
    | none => rw [heta] at hf; exact absurd hf (by simp)
    | some eta =>
        rw [heta] at hf
        dsimp only at hf
        split at hf
        · have hid : issue.shipment_id = sid' := by
            have := Option.some.inj hf
            rw [← this]
          have hsid : sid' = sid := by rw [← hid, ← hdid, heq]
          subst hsid
          have : sh' = sh := lookup_eq_of_mem_nodup hnd hmem hlk
          subst this
          exact hskip hst
        · exact absurd hf (by simp)

/-! Rerouting fixtures. -/

/-- A shipment already in `rerouting` status, on a disrupted route. -/
def reroutingShipment : Shipment :=
  ⟨"s1", "warehouse_1", "warehouse_2", .rerouting, 9, "r1", some 0⟩

/-- An in-transit shipment on a disrupted route. -/
def transitShipment : Shipment :=
  ⟨"s2", "warehouse_1", "warehouse_2", .in_transit, 9, "r1", some 5⟩

def demoActiveR : Dict Shipment := [("s1", reroutingShipment)]

def demoActiveT : Dict Shipment := [("s2", transitShipment)]

def demoRC : Dict RouteStatus := [("r1", ⟨"r1", true⟩)]

def demoIssueR : DelayIssue := ⟨"s1", 0⟩

def demoIssueT : DelayIssue := ⟨"s2", 0⟩

/-- Helper: concrete evaluation of the route-selection chain for the
fixture pair. -/
theorem demo_select_best_route_eval :
    select_best_route
      (find_alternative_routes 0 "warehouse_1" "warehouse_2" "r1") 9 demoRC
      = some ("route_warehouse_1_warehouse_2_alt1", 0 + 17/2) := by
  have halts : find_alternative_routes 0 "warehouse_1" "warehouse_2" "r1"
      = [ ⟨"route_warehouse_1_warehouse_2_alt1", 17/2, 0 + 17/2, 320, 95⟩
        , ⟨"route_warehouse_1_warehouse_2_alt2", 46/5, 0 + 46/5, 350, 105⟩
        , ⟨"route_warehouse_1_warehouse_2_alt3", 10, 0 + 10, 380, 115⟩ ] := by
    simp [find_alternative_routes]
  have hfb : fallback_valid_routes
      (find_alternative_routes 0 "warehouse_1" "warehouse_2" "r1") demoRC
      = find_alternative_routes 0 "warehouse_1" "warehouse_2" "r1" := by
    rw [halts]
    simp [fallback_valid_routes, valid_routes_of, is_disrupted_in, lookup, demoRC]
  have hsorted : sort_routes_for_priority 9
      (find_alternative_routes 0 "warehouse_1" "warehouse_2" "r1")
      = find_alternative_routes 0 "warehouse_1" "warehouse_2" "r1" := by
    unfold sort_routes_for_priority
    rw [if_pos (by norm_num)]
    apply List.mergeSort_of_sorted
    rw [halts]
    norm_num [List.pairwise_cons, durLe]
  unfold select_best_route
  rw [hfb, hsorted, halts]
  simp

/-- C1 counterexample: a delay issue for a shipment whose status is
`rerouting` and whose route is disrupted is not skipped by
`evaluate_shipment_rerouting` — a reroute decision is emitted for it. -/
theorem reroute_emits_for_rerouting_shipment :
    reroutingShipment.status = ShipmentStatus.rerouting ∧
    lookup demoActiveR "s1" = some reroutingShipment ∧
    (evaluate_shipment_rerouting 0 demoActiveR [demoIssueR] demoRC 60).map
      (fun d => d.shipment_id) = ["s1"] := by
  refine ⟨rfl, by simp [lookup, demoActiveR], ?_⟩
  unfold evaluate_shipment_rerouting
  simp only [List.filterMap_cons, List.filterMap_nil]
  rw [show lookup demoActiveR demoIssueR.shipment_id = some reroutingShipment
    from by simp [lookup, demoActiveR, demoIssueR]]
  dsimp only
  rw [show is_disrupted_in demoRC reroutingShipment.route = true
    from by simp [is_disrupted_in, lookup, demoRC, reroutingShipment]]
  simp only [Bool.true_or, if_true, reroutingShipment, demoIssueR]
  rw [demo_select_best_route_eval]
  simp [find_alternative_routes]

theorem reroute_skip_performed_by_issue_detection_witness :
    ((evaluate_shipment_rerouting 0 demoActiveR
        (check_shipment_issues 0 demoActiveR) demoRC 60).all
      (fun d => d.shipment_id != "s1")) = true := by
  rw [List.all_eq_true]
  intro d hd
  have h := reroute_skip_performed_by_issue_detection 0 demoActiveR demoRC 60
    (by simp [demoActiveR]) "s1" reroutingShipment
    (by simp [lookup, demoActiveR]) (Or.inl rfl) d hd
  simpa using h

/-- The decision emitted for the in-transit fixture shipment. -/
def demoRerouteDecision : RerouteDecision :=
  ⟨"s2", "r1", "route_warehouse_1_warehouse_2_alt1", "route_disruption", 0 + 17/2⟩

theorem reroute_decision_safety_witness :
    demoRerouteDecision.new_route ≠ demoRerouteDecision.old_route ∧
    ∃ issue ∈ [demoIssueT], ∃ sh,
      lookup demoActiveT issue.shipment_id = some sh ∧
      demoRerouteDecision.shipment_id = issue.shipment_id ∧
      demoRerouteDecision.old_route = sh.route ∧
      (is_disrupted_in demoRC demoRerouteDecision.new_route = true →
        ∀ r ∈ find_alternative_routes 0 sh.origin sh.destination sh.route,
          is_disrupted_in demoRC r.route_id = true) :=
  reroute_decision_safety 0 demoActiveT [demoIssueT] demoRC 60 demoRerouteDecision
    (by
      unfold evaluate_shipment_rerouting
      simp only [List.filterMap_cons, List.filterMap_nil]
      rw [show lookup demoActiveT demoIssueT.shipment_id = some transitShipment
        from by simp [lookup, demoActiveT, demoIssueT]]
      dsimp only
      rw [show is_disrupted_in demoRC transitShipment.route = true
        from by simp [is_disrupted_in, lookup, demoRC, transitShipment]]
      simp only [Bool.true_or, if_true, transitShipment, demoIssueT]
      rw [demo_select_best_route_eval]
      simp [find_alternative_routes, demoRerouteDecision])

/-! Inventory rebalancing: `decision_engine.py  _identify_inventory_imbalances`
and `_balance_inventory`. -/

/-- The per-warehouse quantity/threshold triple collected by
`_identify_inventory_imbalances` for one item. -/
structure WhInv where
  quantity : ℤ
  min_threshold : ℤ
  max_threshold : ℤ
  deriving DecidableEq, Repr

/-- One `item_inventory` record (the collected `category` field is never
read afterwards and is dropped). -/
structure ItemInv where
  name : String
  unit : String
  warehouses : Dict WhInv
  deriving DecidableEq, Repr

/-- Record one `(warehouse, item)` observation in the `item_inventory`
accumulator: append the warehouse under the item's entry, creating the
entry (with the first-seen name/unit) when absent. -/
def insertItemInv (acc : Dict ItemInv) (item_id : String) (wid : String)
    (item : InventoryItem) : Dict ItemInv :=
  match acc with
  | [] => [(item_id, ⟨item.name, item.unit,
      [(wid, ⟨item.quantity, item.min_threshold, item.max_threshold⟩)]⟩)]
  | (k, v) :: rest =>
      if k == item_id then
        (k, ⟨v.name, v.unit, v.warehouses
          ++ [(wid, ⟨item.quantity, item.min_threshold, item.max_threshold⟩)]⟩)
        :: rest
      else (k, v) :: insertItemInv rest item_id wid item

/-- The first loop of `_identify_inventory_imbalances`: per item, the
per-warehouse triples in warehouse iteration order. -/
def collect_item_inventory (warehouses : Dict Warehouse) : Dict ItemInv :=
  warehouses.foldl
    (fun acc p =>
      p.2.items.foldl (fun acc2 q => insertItemInv acc2 q.1 p.1 q.2) acc)
    []

/-- Fill ratio `(quantity - min) / (max - min)`, undefined (skipped) when
the threshold range is not positive. -/
def ratioOf (inv : WhInv) : Option ℚ :=
  if inv.max_threshold - inv.min_threshold > 0 then
    some (((inv.quantity : ℚ) - (inv.min_threshold : ℚ))
      / ((inv.max_threshold - inv.min_threshold : ℤ) : ℚ))
  else none

/-- The ratios of the valid-range warehouses, in order (the values summed
into `total_ratio` with `warehouse_count` increments). -/
def validRatios (whs : Dict WhInv) : List ℚ :=
  whs.filterMap (fun p => ratioOf p.2)

/-- `avg_ratio = total_ratio / warehouse_count`. -/
def avgRatioOf (whs : Dict WhInv) : ℚ :=
  (validRatios whs).sum / ((validRatios whs).length : ℚ)

/-- The excess side of the classification loop: warehouses with
`ratio > avg + 0.25` whose `int((ratio - avg - 0.15) * range)` is
positive, with that amount. -/
def excess_warehouses_of (avg : ℚ) (whs : Dict WhInv) : Dict ℤ :=
  whs.filterMap fun p =>
    if p.2.max_threshold - p.2.min_threshold > 0 then
      if ((p.2.quantity : ℚ) - (p.2.min_threshold : ℚ))
            / ((p.2.max_threshold - p.2.min_threshold : ℤ) : ℚ)
          > avg + 1/4 then
        if pyInt ((((p.2.quantity : ℚ) - (p.2.min_threshold : ℚ))
              / ((p.2.max_threshold - p.2.min_threshold : ℤ) : ℚ) - avg - 3/20)
            * ((p.2.max_threshold - p.2.min_threshold : ℤ) : ℚ)) > 0 then
          some (p.1, pyInt ((((p.2.quantity : ℚ) - (p.2.min_threshold : ℚ))
              / ((p.2.max_threshold - p.2.min_threshold : ℤ) : ℚ) - avg - 3/20)
            * ((p.2.max_threshold - p.2.min_threshold : ℤ) : ℚ)))
        else none
      else none
    else none

/-- The deficit side of the classification loop (the `elif`; the two
guards are mutually exclusive, so the branches are independent):
warehouses with `ratio < avg - 0.25` whose
`int((avg - 0.15 - ratio) * range)` is positive, with that amount. -/
def deficit_warehouses_of (avg : ℚ) (whs : Dict WhInv) : Dict ℤ :=
  whs.filterMap fun p =>
    if p.2.max_threshold - p.2.min_threshold > 0 then
      if ((p.2.quantity : ℚ) - (p.2.min_threshold : ℚ))
            / ((p.2.max_threshold - p.2.min_threshold : ℤ) : ℚ)
          < avg - 1/4 then
        if pyInt ((avg - 3/20 - ((p.2.quantity : ℚ) - (p.2.min_threshold : ℚ))
              / ((p.2.max_threshold - p.2.min_threshold : ℤ) : ℚ))
            * ((p.2.max_threshold - p.2.min_threshold : ℤ) : ℚ)) > 0 then
          some (p.1, pyInt ((avg - 3/20 - ((p.2.quantity : ℚ) - (p.2.min_threshold : ℚ))
              / ((p.2.max_threshold - p.2.min_threshold : ℤ) : ℚ))
            * ((p.2.max_threshold - p.2.min_threshold : ℤ) : ℚ)))
        else none
      else none
    else none

/-- One entry of `imbalanced_items`. -/
structure Imbalance where
  name : String
  unit : String
  excess : Dict ℤ
  deficit : Dict ℤ
  deriving DecidableEq, Repr

/-- `decision_engine.py  _identify_inventory_imbalances`. -/
def identify_inventory_imbalances (warehouses : Dict Warehouse) :
    Dict Imbalance :=
  (collect_item_inventory warehouses).filterMap fun p =>
    if p.2.warehouses.length ≤ 1 then none
    else if (validRatios p.2.warehouses).length = 0 then none
    else if (excess_warehouses_of (avgRatioOf p.2.warehouses) p.2.warehouses).isEmpty
        || (deficit_warehouses_of (avgRatioOf p.2.warehouses) p.2.warehouses).isEmpty
      then none
    else some (p.1, ⟨p.2.name, p.2.unit,
      excess_warehouses_of (avgRatioOf p.2.warehouses) p.2.warehouses,
      deficit_warehouses_of (avgRatioOf p.2.warehouses) p.2.warehouses⟩)

/-- The inner source-selection loop of `_balance_inventory`: among excess
warehouses with remaining excess > 0, the first at strictly minimal
distance to the deficit warehouse (initial best distance is infinite, so
the first candidate always wins). -/
def pick_best_source (excess : Dict ℤ) (deficit_id : String) : Option String :=
  (excess.foldl
    (fun best p =>
      if p.2 ≤ 0 then best
      else
        match best with
        | none => some (p.1, calculate_distance p.1 deficit_id)
        | some (bid, bdist) =>
            if calculate_distance p.1 deficit_id < bdist then
              some (p.1, calculate_distance p.1 deficit_id)
            else some (bid, bdist))
    none).map Prod.fst

/-- `excess_warehouses[best_source]` (the 0 default is unreachable: the
chosen source is always one of the keys). -/
def lookupAmt (excess : Dict ℤ) (k : String) : ℤ :=
  (lookup excess k).getD 0

/-- The in-place `excess_warehouses[best_source] -= transfer_amount`. -/
def decrementExcess (excess : Dict ℤ) (k : String) (amt : ℤ) : Dict ℤ :=
  excess.map (fun p => if p.1 == k then (p.1, p.2 - amt) else p)

/-- One iteration of the per-deficit loop of `_balance_inventory`,
threading the remaining-excess dict and the accumulated decisions. -/
def balance_item_step (item_id : String) (imb : Imbalance)
    (st : Dict ℤ × List InventoryTransferDecision) (dp : String × ℤ) :
    Dict ℤ × List InventoryTransferDecision :=
  match pick_best_source st.1 dp.1 with
  | none => st
  | some best_source =>
      ( decrementExcess st.1 best_source (min (lookupAmt st.1 best_source) dp.2)
      , st.2 ++ [⟨best_source, dp.1,
          [⟨item_id, imb.name, ((min (lookupAmt st.1 best_source) dp.2 : ℤ) : ℚ),
            imb.unit⟩],
          "inventory_balancing", 3⟩] )

/-- The per-item deficit loop of `_balance_inventory`. -/
def balance_item (item_id : String) (imb : Imbalance) :
    List InventoryTransferDecision :=
  (imb.deficit.foldl (balance_item_step item_id imb) (imb.excess, [])).2

/-- `decision_engine.py  _balance_inventory` (the redundant inner
no-imbalance `continue` is kept). -/
def balance_inventory (warehouses : Dict Warehouse) :
    List InventoryTransferDecision :=
  (identify_inventory_imbalances warehouses).foldl
    (fun acc p =>
      if p.2.excess.isEmpty || p.2.deficit.isEmpty then acc
      else acc ++ balance_item p.1 p.2)
    []

theorem pyInt_eq_floor {q : ℚ} (h : 0 ≤ q) : pyInt q = ⌊q⌋ := by
  unfold pyInt
  rw [if_pos h]

/-- Shorthand for a warehouse triple's fill ratio as a raw quotient. -/
def rawRatio (inv : WhInv) : ℚ :=
  ((inv.quantity : ℚ) - (inv.min_threshold : ℚ))
    / ((inv.max_threshold - inv.min_threshold : ℤ) : ℚ)

theorem mem_excess_warehouses_iff (avg : ℚ) (whs : Dict WhInv)
    (wid : String) (amt : ℤ) :
    (wid, amt) ∈ excess_warehouses_of avg whs ↔
      ∃ inv : WhInv, (wid, inv) ∈ whs ∧
        0 < inv.max_threshold - inv.min_threshold ∧
        rawRatio inv > avg + 1/4 ∧
        amt = ⌊(rawRatio inv - avg - 3/20)
          * ((inv.max_threshold - inv.min_threshold : ℤ) : ℚ)⌋ ∧
        1 ≤ amt := by
  unfold rawRatio
  unfold excess_warehouses_of
  rw [List.mem_filterMap]
  constructor
  · rintro ⟨⟨wid', inv⟩, hmem, hf⟩
    dsimp only at hf
    split at hf
    next hrange =>
      split at hf
      next hratio =>
        split at hf
        next hpos =>
          have heq := Option.some.inj hf
          have h1 : wid' = wid := congrArg Prod.fst heq
          have h2 := congrArg Prod.snd heq
          dsimp only at h2
          subst h1
          have hrq : (0 : ℚ) < ((inv.max_threshold - inv.min_threshold : ℤ) : ℚ) := by
            exact_mod_cast hrange
          have hnn : (0 : ℚ) ≤ (((inv.quantity : ℚ) - (inv.min_threshold : ℚ))
                / ((inv.max_threshold - inv.min_threshold : ℤ) : ℚ) - avg - 3/20)
              * ((inv.max_threshold - inv.min_threshold : ℤ) : ℚ) := by
            apply mul_nonneg _ hrq.le
            linarith [hratio]
          rw [pyInt_eq_floor hnn] at h2 hpos
          exact ⟨inv, hmem, hrange, hratio, h2.symm, by omega⟩
        · exact absurd hf (by simp)
      · exact absurd hf (by simp)
    · exact absurd hf (by simp)
  · rintro ⟨inv, hmem, hrange, hratio, hamt, hone⟩
    refine ⟨(wid, inv), hmem, ?_⟩
    dsimp only
    have hrq : (0 : ℚ) < ((inv.max_threshold - inv.min_threshold : ℤ) : ℚ) := by
      exact_mod_cast hrange
    have hnn : (0 : ℚ) ≤ (((inv.quantity : ℚ) - (inv.min_threshold : ℚ))
          / ((inv.max_threshold - inv.min_threshold : ℤ) : ℚ) - avg - 3/20)
        * ((inv.max_threshold - inv.min_threshold : ℤ) : ℚ) := by
      apply mul_nonneg _ hrq.le
      linarith [hratio]
    have hval : pyInt ((((inv.quantity : ℚ) - (inv.min_threshold : ℚ))
        / ((inv.max_threshold - inv.min_threshold : ℤ) : ℚ) - avg - 3/20)
      * ((inv.max_threshold - inv.min_threshold : ℤ) : ℚ)) = amt := by
      rw [pyInt_eq_floor hnn, ← hamt]
    rw [if_pos hrange, if_pos hratio, if_pos (by rw [hval]; omega : pyInt _ > 0), hval]

theorem mem_deficit_warehouses_iff (avg : ℚ) (whs : Dict WhInv)
    (wid : String) (amt : ℤ) :
    (wid, amt) ∈ deficit_warehouses_of avg whs ↔
      ∃ inv : WhInv, (wid, inv) ∈ whs ∧
        0 < inv.max_threshold - inv.min_threshold ∧
        rawRatio inv < avg - 1/4 ∧
        amt = ⌊(avg - 3/20 - rawRatio inv)
          * ((inv.max_threshold - inv.min_threshold : ℤ) : ℚ)⌋ ∧
        1 ≤ amt := by
  unfold rawRatio
  unfold deficit_warehouses_of
  rw [List.mem_filterMap]
  constructor
  · rintro ⟨⟨wid', inv⟩, hmem, hf⟩
    dsimp only at hf
    split at hf
    next hrange =>
      split at hf
      next hratio =>
        split at hf
        next hpos =>
          have heq := Option.some.inj hf
          have h1 : wid' = wid := congrArg Prod.fst heq
          have h2 := congrArg Prod.snd heq
          dsimp only at h2
          subst h1
          have hrq : (0 : ℚ) < ((inv.max_threshold - inv.min_threshold : ℤ) : ℚ) := by
            exact_mod_cast hrange
          have hnn : (0 : ℚ) ≤ (avg - 3/20 - ((inv.quantity : ℚ) - (inv.min_threshold : ℚ))
                / ((inv.max_threshold - inv.min_threshold : ℤ) : ℚ))
              * ((inv.max_threshold - inv.min_threshold : ℤ) : ℚ) := by
            apply mul_nonneg _ hrq.le
            linarith [hratio]
          rw [pyInt_eq_floor hnn] at h2 hpos
          exact ⟨inv, hmem, hrange, hratio, h2.symm, by omega⟩
        · exact absurd hf (by simp)
      · exact absurd hf (by simp)
    · exact absurd hf (by simp)
  · rintro ⟨inv, hmem, hrange, hratio, hamt, hone⟩
    refine ⟨(wid, inv), hmem, ?_⟩
    dsimp only
    have hrq : (0 : ℚ) < ((inv.max_threshold - inv.min_threshold : ℤ) : ℚ) := by
      exact_mod_cast hrange
    have hnn : (0 : ℚ) ≤ (avg - 3/20 - ((inv.quantity : ℚ) - (inv.min_threshold : ℚ))
          / ((inv.max_threshold - inv.min_threshold : ℤ) : ℚ))
        * ((inv.max_threshold - inv.min_threshold : ℤ) : ℚ) := by
      apply mul_nonneg _ hrq.le
      linarith [hratio]
    have hval : pyInt ((avg - 3/20 - ((inv.quantity : ℚ) - (inv.min_threshold : ℚ))
        / ((inv.max_threshold - inv.min_threshold : ℤ) : ℚ))
      * ((inv.max_threshold - inv.min_threshold : ℤ) : ℚ)) = amt := by
      rw [pyInt_eq_floor hnn, ← hamt]
    rw [if_pos hrange, if_pos hratio, if_pos (by rw [hval]; omega : pyInt _ > 0), hval]

/-- Helper: the structure of every entry of `_identify_inventory_imbalances`. -/
theorem mem_identify_spec {warehouses : Dict Warehouse} {p : String × Imbalance}
    (hp : p ∈ identify_inventory_imbalances warehouses) :
    ∃ idata : ItemInv, (p.1, idata) ∈ collect_item_inventory warehouses ∧
      1 < idata.warehouses.length ∧
      (validRatios idata.warehouses).length ≠ 0 ∧
      p.2 = ⟨idata.name, idata.unit,
        excess_warehouses_of (avgRatioOf idata.warehouses) idata.warehouses,
        deficit_warehouses_of (avgRatioOf idata.warehouses) idata.warehouses⟩ ∧
      p.2.excess.isEmpty = false ∧ p.2.deficit.isEmpty = false := by
  unfold identify_inventory_imbalances at hp
  rw [List.mem_filterMap] at hp
  obtain ⟨⟨iid, idata⟩, hmem, hf⟩ := hp
  dsimp only at hf
  split at hf
  · exact absurd hf (by simp)
  next hlen =>
    split at hf
    · exact absurd hf (by simp)
    next hvr =>
      split at hf
      · exact absurd hf (by simp)
      next hboth =>
        have hpe : ((iid, (⟨idata.name, idata.unit,
            excess_warehouses_of (avgRatioOf idata.warehouses) idata.warehouses,
            deficit_warehouses_of (avgRatioOf idata.warehouses) idata.warehouses⟩
              : Imbalance)) : String × Imbalance) = p := Option.some.inj hf
        rw [Bool.or_eq_true, not_or] at hboth
        refine ⟨idata, ?_, by omega, hvr, ?_, ?_, ?_⟩
        · rw [← hpe]
          exact hmem
        · rw [← hpe]
        · rw [← hpe]
          simpa using hboth.1
        · rw [← hpe]
          simpa using hboth.2

/-- C3 (amended).  With `r` the fill ratio and `avg` the mean over
valid-range warehouses: a warehouse is classified excess exactly when
`r > avg + 0.25` AND `floor((r - avg - 0.15) * range) ≥ 1`, with that
floor as `excess_amount`; dually, deficit exactly when `r < avg - 0.25`
AND `floor((avg - 0.15 - r) * range) ≥ 1`, with that floor as
`deficit_amount` (the source drops classifications whose truncated amount
is not positive); an item is reported, and can yield transfer decisions,
only when both sets are non-empty. -/
theorem rebalancer_classification
    (warehouses : Dict Warehouse) (avg : ℚ) (whs : Dict WhInv)
    (wid : String) (amt : ℤ) :
    ((wid, amt) ∈ excess_warehouses_of avg whs ↔
      ∃ inv : WhInv, (wid, inv) ∈ whs ∧
        0 < inv.max_threshold - inv.min_threshold ∧
        rawRatio inv > avg + 1/4 ∧
        amt = ⌊(rawRatio inv - avg - 3/20)
          * ((inv.max_threshold - inv.min_threshold : ℤ) : ℚ)⌋ ∧
        1 ≤ amt) ∧
    ((wid, amt) ∈ deficit_warehouses_of avg whs ↔
      ∃ inv : WhInv, (wid, inv) ∈ whs ∧
        0 < inv.max_threshold - inv.min_threshold ∧
        rawRatio inv < avg - 1/4 ∧
        amt = ⌊(avg - 3/20 - rawRatio inv)
          * ((inv.max_threshold - inv.min_threshold : ℤ) : ℚ)⌋ ∧
        1 ≤ amt) ∧
    (∀ p ∈ identify_inventory_imbalances warehouses,
      p.2.excess ≠ [] ∧ p.2.deficit ≠ [] ∧
      ∃ idata : ItemInv, (p.1, idata) ∈ collect_item_inventory warehouses ∧
        1 < idata.warehouses.length ∧
        p.2.excess
          = excess_warehouses_of (avgRatioOf idata.warehouses) idata.warehouses ∧
        p.2.deficit
          = deficit_warehouses_of (avgRatioOf idata.warehouses) idata.warehouses) := by
  refine ⟨mem_excess_warehouses_iff avg whs wid amt,
    mem_deficit_warehouses_iff avg whs wid amt, ?_⟩
  intro p hp
  obtain ⟨idata, hmem, hlen, _, hstruct, hex, hdf⟩ := mem_identify_spec hp
  refine ⟨by simpa using hex, by simpa using hdf, idata, hmem, hlen, ?_, ?_⟩
  · rw [hstruct]
  · rw [hstruct]

/-! C3 counterexample fixture: a tiny threshold range makes the truncated
excess amount 0, so a warehouse with `r > avg + 0.25` is not classified. -/

def cexWarehouses : Dict Warehouse :=
  [ ("A", ⟨"A", "Alpha", "loc_a", 100, [("x", ⟨"x", "X", "cat", 2, "u", 0, 2⟩)]⟩)
  , ("B", ⟨"B", "Beta", "loc_b", 100, [("x", ⟨"x", "X", "cat", 0, "u", 0, 2⟩)]⟩) ]

/-- C3 counterexample: item `x` sits in warehouses A (quantity 2,
thresholds 0/2, ratio 1) and B (quantity 0, ratio 0); the mean ratio is
1/2, so A's ratio 1 exceeds `avg + 0.25 = 3/4` — the claim classifies A
as excess (with amount `floor((1 - 1/2 - 0.15) * 2) = 0`) and B as
deficit, making both sets non-empty — yet the code classifies nothing
(the truncated amounts are 0 and dropped) and reports no imbalance. -/
theorem rebalancer_classification_counterexample :
    collect_item_inventory cexWarehouses
      = [("x", ⟨"X", "u", [("A", ⟨2, 0, 2⟩), ("B", ⟨0, 0, 2⟩)]⟩)] ∧
    avgRatioOf [("A", (⟨2, 0, 2⟩ : WhInv)), ("B", ⟨0, 0, 2⟩)] = 1/2 ∧
    rawRatio (⟨2, 0, 2⟩ : WhInv) = 1 ∧
    ((1 : ℚ) > 1/2 + 1/4) ∧
    excess_warehouses_of (1/2) [("A", (⟨2, 0, 2⟩ : WhInv)), ("B", ⟨0, 0, 2⟩)] = [] ∧
    identify_inventory_imbalances cexWarehouses = [] := by
  have hcol : collect_item_inventory cexWarehouses
      = [("x", ⟨"X", "u", [("A", ⟨2, 0, 2⟩), ("B", ⟨0, 0, 2⟩)]⟩)] := by
    simp [collect_item_inventory, cexWarehouses, insertItemInv]
  have havg : avgRatioOf [("A", (⟨2, 0, 2⟩ : WhInv)), ("B", ⟨0, 0, 2⟩)] = 1/2 := by
    norm_num [avgRatioOf, validRatios, ratioOf, List.filterMap_cons]
  have hex : excess_warehouses_of (1/2)
      [("A", (⟨2, 0, 2⟩ : WhInv)), ("B", ⟨0, 0, 2⟩)] = [] := by
    norm_num [excess_warehouses_of, pyInt, List.filterMap_cons]
  refine ⟨hcol, havg, by norm_num [rawRatio], by norm_num, hex, ?_⟩
  unfold identify_inventory_imbalances
  rw [hcol]
  simp only [List.filterMap_cons, List.filterMap_nil]
  rw [havg]
  norm_num [excess_warehouses_of, deficit_warehouses_of, pyInt, validRatios,
    ratioOf, List.filterMap_cons]

/-- If nothing is imbalanced, the rebalancer emits nothing. -/
theorem balance_inventory_of_identify_nil {warehouses : Dict Warehouse}
    (h : identify_inventory_imbalances warehouses = []) :
    balance_inventory warehouses = [] := by
  unfold balance_inventory
  rw [h]
  rfl

/-- C7.  On a snapshot where, for every multi-warehouse item, every
valid-range warehouse ratio lies within 0.25 of the item's mean ratio,
the rebalancer returns the empty decision list — and, the engine being a
pure function that does not mutate its snapshot, a second run on the same
snapshot returns the empty list again. -/
theorem rebalance_idempotent_on_balanced
    (warehouses : Dict Warehouse)
    (hbal : ∀ p ∈ collect_item_inventory warehouses,
      1 < (p.2 : ItemInv).warehouses.length →
      ∀ q ∈ (p.2 : ItemInv).warehouses, ∀ r : ℚ, ratioOf q.2 = some r →
        |r - avgRatioOf (p.2 : ItemInv).warehouses| ≤ 1/4) :
    balance_inventory warehouses = [] ∧ balance_inventory warehouses = [] := by
  have hident : identify_inventory_imbalances warehouses = [] := by
    unfold identify_inventory_imbalances
    rw [List.filterMap_eq_nil_iff]
    intro p hp
    by_cases hlen : p.2.warehouses.length ≤ 1
    · rw [if_pos hlen]
    · rw [if_neg hlen]
      by_cases hvr : (validRatios p.2.warehouses).length = 0
      · rw [if_pos hvr]
      · rw [if_neg hvr]
        have hex : excess_warehouses_of (avgRatioOf p.2.warehouses)
            p.2.warehouses = [] := by
          rw [List.eq_nil_iff_forall_not_mem]
          rintro ⟨wid, amt⟩ hw
          rw [mem_excess_warehouses_iff] at hw
          obtain ⟨inv, hinv, hrange, hratio, _, _⟩ := hw
          have hr : ratioOf inv = some (rawRatio inv) := by
            unfold ratioOf rawRatio
            rw [if_pos hrange]
          have habs := hbal p hp (by omega) (wid, inv) hinv (rawRatio inv) hr
          rw [abs_le] at habs
          linarith [habs.2]
        rw [hex]
        simp
  exact ⟨balance_inventory_of_identify_nil hident,
    balance_inventory_of_identify_nil hident⟩

/-- A balanced snapshot: the same item at ratio 1/2 in both warehouses. -/
def balancedWarehouses : Dict Warehouse :=
  [ ("A", ⟨"A", "Alpha", "loc_a", 1000,
      [("x", ⟨"x", "X", "cat", 150, "u", 100, 200⟩)]⟩)
  , ("B", ⟨"B", "Beta", "loc_b", 1000,
      [("x", ⟨"x", "X", "cat", 150, "u", 100, 200⟩)]⟩) ]

theorem rebalance_idempotent_on_balanced_witness :
    balance_inventory balancedWarehouses = [] ∧
    balance_inventory balancedWarehouses = [] :=
  rebalance_idempotent_on_balanced balancedWarehouses (by
    have hcol : collect_item_inventory balancedWarehouses
        = [("x", ⟨"X", "u", [("A", ⟨150, 100, 200⟩), ("B", ⟨150, 100, 200⟩)]⟩)] := by
      simp [collect_item_inventory, balancedWarehouses, insertItemInv]
    rw [hcol]
    intro p hp
    rw [List.mem_singleton] at hp
    subst hp
    intro _ q hq r hr
    dsimp only at hq ⊢
    have havg : avgRatioOf
        [("A", (⟨150, 100, 200⟩ : WhInv)), ("B", ⟨150, 100, 200⟩)] = 1/2 := by
      norm_num [avgRatioOf, validRatios, ratioOf, List.filterMap_cons]
    rcases List.mem_cons.mp hq with hqa | hq2
    · subst hqa
      rw [show r = 1/2 from by
        have : ratioOf (⟨150, 100, 200⟩ : WhInv) = some (1/2) := by
          norm_num [ratioOf]
        rw [this] at hr
        exact (Option.some.inj hr).symm]
      rw [havg]
      norm_num
    · rw [List.mem_singleton] at hq2
      subst hq2
      rw [show r = 1/2 from by
        have : ratioOf (⟨150, 100, 200⟩ : WhInv) = some (1/2) := by
          norm_num [ratioOf]
        rw [this] at hr
        exact (Option.some.inj hr).symm]
      rw [havg]
      norm_num)

/-! C4: the in-place remaining-excess decrement prevents double-spending
a source's surplus across the deficits of one item. -/

/-- Total item quantity of one decision. -/
def qtyOf (d : InventoryTransferDecision) : ℚ :=
  (d.items.map TransferItem.quantity).sum

/-- The quantity that the decisions in `recs` draw from source `sid` for
item `iid`. -/
def drawnFromItem (recs : List InventoryTransferDecision) (iid sid : String) : ℚ :=
  (recs.map (fun d =>
    if d.source_warehouse = sid ∧ d.items.map TransferItem.id = [iid]
    then qtyOf d else 0)).sum

theorem drawnFromItem_append (a b : List InventoryTransferDecision)
    (iid sid : String) :
    drawnFromItem (a ++ b) iid sid
      = drawnFromItem a iid sid + drawnFromItem b iid sid := by
  unfold drawnFromItem
  rw [List.map_append, List.sum_append]

theorem drawnFromItem_eq_zero {recs : List InventoryTransferDecision}
    {iid sid : String}
    (h : ∀ d ∈ recs, d.items.map TransferItem.id ≠ [iid]) :
    drawnFromItem recs iid sid = 0 := by
  unfold drawnFromItem
  apply List.sum_eq_zero
  intro x hx
  rw [List.mem_map] at hx
  obtain ⟨d, hd, hxe⟩ := hx
  rw [← hxe, if_neg]
  rintro ⟨_, h2⟩
  exact h d hd h2

theorem find?_map_keyfun {β : Type} (g : String × β → String × β)
    (hg : ∀ p, (g p).1 = p.1) (pkey : String) :
    ∀ e : List (String × β),
      (e.map g).find? (fun q => q.1 == pkey)
        = (e.find? (fun q => q.1 == pkey)).map g := by
  intro e
  induction e with
  | nil => rfl
  | cons p rest ih =>
      rw [List.map_cons, List.find?_cons, List.find?_cons]
      rcases hk : (p.1 == pkey) with _ | _
      · simp only [hg p, hk]
        exact ih
      · simp only [hg p, hk]
        rfl

theorem lookup_decrementExcess_self (e : Dict ℤ) (k : String) (a : ℤ) :
    lookup (decrementExcess e k a) k = (lookup e k).map (fun v => v - a) := by
  unfold lookup decrementExcess
  rw [find?_map_keyfun (fun p => if p.1 == k then (p.1, p.2 - a) else p)
    (fun p => by dsimp only; split <;> rfl) k]
  cases hf : e.find? (fun q => q.1 == k) with
  | none => rfl
  | some q =>
      have hq : q.1 = k := by simpa using List.find?_some hf
      simp [hq]

theorem lookupAmt_decrement_self {e : Dict ℤ} {k : String} (a : ℤ)
    (h : (lookup e k).isSome) :
    lookupAmt (decrementExcess e k a) k = lookupAmt e k - a := by
  unfold lookupAmt
  rw [lookup_decrementExcess_self]
  obtain ⟨v, hv⟩ := Option.isSome_iff_exists.mp h
  rw [hv]
  rfl

theorem lookup_decrementExcess_other (e : Dict ℤ) {k k' : String} (a : ℤ)
    (hne : k' ≠ k) : lookup (decrementExcess e k a) k' = lookup e k' := by
  unfold lookup decrementExcess
  rw [find?_map_keyfun (fun p => if p.1 == k then (p.1, p.2 - a) else p)
    (fun p => by dsimp only; split <;> rfl) k']
  cases hf : e.find? (fun q => q.1 == k') with
  | none => rfl
  | some q =>
      have hq1 : q.1 = k' := by simpa using List.find?_some hf
      have hqk : ¬ (q.1 = k) := by
        rw [hq1]
        exact hne
      simp [hqk]

theorem lookupAmt_decrement_other {e : Dict ℤ} {k k' : String} (a : ℤ)
    (hne : k' ≠ k) :
    lookupAmt (decrementExcess e k a) k' = lookupAmt e k' := by
  unfold lookupAmt
  rw [lookup_decrementExcess_other e a hne]

theorem pick_fold_mem (did : String) :
    ∀ (e : Dict ℤ) (acc : Option (String × ℚ)) (q : String × ℚ),
      e.foldl
        (fun best p =>
          if p.2 ≤ 0 then best
          else
            match best with
            | none => some (p.1, calculate_distance p.1 did)
            | some (bid, bdist) =>
                if calculate_distance p.1 did < bdist then
                  some (p.1, calculate_distance p.1 did)
                else some (bid, bdist))
        acc = some q →
      acc = some q ∨ ∃ a, (q.1, a) ∈ e ∧ 0 < a := by
  intro e
  induction e with
  | nil => intro acc q h; exact Or.inl h
  | cons p rest ih =>
      intro acc q h
      rw [List.foldl_cons] at h
      rcases ih _ q h with hacc | ⟨a, hmem, hpos⟩
      · by_cases hle : p.2 ≤ 0
        · rw [if_pos hle] at hacc
          exact Or.inl hacc
        · rw [if_neg hle] at hacc
          cases acc with
          | none =>
              refine Or.inr ⟨p.2, ?_, by omega⟩
              have : q.1 = p.1 := by
                have := Option.some.inj hacc
                rw [← this]
              rw [this]
              exact List.mem_cons_self _ _
          | some pr =>
              obtain ⟨bid, bdist⟩ := pr
              dsimp only at hacc
              split at hacc
              · refine Or.inr ⟨p.2, ?_, by omega⟩
                have : q.1 = p.1 := by
                  have := Option.some.inj hacc
                  rw [← this]
                rw [this]
                exact List.mem_cons_self _ _
              · exact Or.inl hacc
      · exact Or.inr ⟨a, List.mem_cons_of_mem _ hmem, hpos⟩

theorem pick_best_source_spec {e : Dict ℤ} {did bs : String}
    (h : pick_best_source e did = some bs) :
    ∃ a, (bs, a) ∈ e ∧ 0 < a := by
  unfold pick_best_source at h
  rw [Option.map_eq_some'] at h
  obtain ⟨q, hfold, hq1⟩ := h
  rcases pick_fold_mem did e none q hfold with hacc | ⟨a, hmem, hpos⟩
  · exact absurd hacc (by simp)
  · exact ⟨a, by rwa [hq1] at hmem, hpos⟩

theorem balance_item_step_spec (item_id : String) (imb : Imbalance)
    (sid : String) (st : Dict ℤ × List InventoryTransferDecision)
    (dp : String × ℤ) (hnn : 0 ≤ lookupAmt st.1 sid) :
    drawnFromItem (balance_item_step item_id imb st dp).2 item_id sid
        + ((lookupAmt (balance_item_step item_id imb st dp).1 sid : ℤ) : ℚ)
      = drawnFromItem st.2 item_id sid + ((lookupAmt st.1 sid : ℤ) : ℚ)
    ∧ 0 ≤ lookupAmt (balance_item_step item_id imb st dp).1 sid := by
  unfold balance_item_step
  cases hpick : pick_best_source st.1 dp.1 with
  | none => exact ⟨rfl, hnn⟩
  | some bs =>
      dsimp only
      by_cases hbs : bs = sid
      · subst hbs
        obtain ⟨a, hmem, _⟩ := pick_best_source_spec hpick
        obtain ⟨w, hw⟩ := lookup_isSome_of_mem hmem
        have hisSome : (lookup st.1 bs).isSome := by rw [hw]; rfl
        rw [lookupAmt_decrement_self _ hisSome, drawnFromItem_append]
        have hdrawn : drawnFromItem
            [⟨bs, dp.1, [⟨item_id, imb.name,
                ((min (lookupAmt st.1 bs) dp.2 : ℤ) : ℚ), imb.unit⟩],
              "inventory_balancing", 3⟩] item_id bs
            = ((min (lookupAmt st.1 bs) dp.2 : ℤ) : ℚ) := by
          unfold drawnFromItem qtyOf
          simp
        rw [hdrawn]
        constructor
        · push_cast
          ring
        · have : min (lookupAmt st.1 bs) dp.2 ≤ lookupAmt st.1 bs :=
            min_le_left _ _
          omega
      · rw [lookupAmt_decrement_other _ (fun h => hbs h.symm),
          drawnFromItem_append]
        have hdrawn : drawnFromItem
            [⟨bs, dp.1, [⟨item_id, imb.name,
                ((min (lookupAmt st.1 bs) dp.2 : ℤ) : ℚ), imb.unit⟩],
              "inventory_balancing", 3⟩] item_id sid = 0 := by
          unfold drawnFromItem
          simp [hbs]
        rw [hdrawn]
        exact ⟨by ring, hnn⟩

theorem balance_item_fold_spec (item_id : String) (imb : Imbalance)
    (sid : String) :
    ∀ (deficits : List (String × ℤ))
      (st : Dict ℤ × List InventoryTransferDecision),
      0 ≤ lookupAmt st.1 sid →
      drawnFromItem
          (deficits.foldl (balance_item_step item_id imb) st).2 item_id sid
        + ((lookupAmt
            (deficits.foldl (balance_item_step item_id imb) st).1 sid : ℤ) : ℚ)
        = drawnFromItem st.2 item_id sid + ((lookupAmt st.1 sid : ℤ) : ℚ)
      ∧ 0 ≤ lookupAmt
          (deficits.foldl (balance_item_step item_id imb) st).1 sid := by
  intro deficits
  induction deficits with
  | nil => intro st h; exact ⟨rfl, h⟩
  | cons dp rest ih =>
      intro st h
      obtain ⟨hstep_eq, hstep_nn⟩ := balance_item_step_spec item_id imb sid st dp h
      obtain ⟨hrest_eq, hrest_nn⟩ := ih (balance_item_step item_id imb st dp) hstep_nn
      rw [List.foldl_cons]
      exact ⟨by rw [hrest_eq, hstep_eq], hrest_nn⟩

theorem balance_item_drawn_le (item_id : String) (imb : Imbalance)
    (sid : String) (amt : ℤ) (hsrc : lookup imb.excess sid = some amt)
    (hnn : 0 ≤ amt) :
    drawnFromItem (balance_item item_id imb) item_id sid ≤ (amt : ℚ) := by
  unfold balance_item
  have h0 : lookupAmt imb.excess sid = amt := by
    unfold lookupAmt
    rw [hsrc]
    rfl
  obtain ⟨heq, hfin⟩ := balance_item_fold_spec item_id imb sid imb.deficit
    (imb.excess, []) (by rw [h0]; exact hnn)
  have hz : drawnFromItem ((imb.excess, ([] : List InventoryTransferDecision))).2
      item_id sid = 0 := rfl
  rw [hz, zero_add, h0] at heq
  have hcast : (0 : ℚ) ≤ ((lookupAmt
      (imb.deficit.foldl (balance_item_step item_id imb) (imb.excess, [])).1
        sid : ℤ) : ℚ) := by
    exact_mod_cast hfin
  linarith [heq]

theorem balance_item_items (item_id : String) (imb : Imbalance) :
    ∀ d ∈ balance_item item_id imb,
      d.items.map TransferItem.id = [item_id] := by
  unfold balance_item
  suffices h : ∀ (deficits : List (String × ℤ))
      (st : Dict ℤ × List InventoryTransferDecision),
      (∀ d ∈ st.2, d.items.map TransferItem.id = [item_id]) →
      ∀ d ∈ (deficits.foldl (balance_item_step item_id imb) st).2,
        d.items.map TransferItem.id = [item_id] by
    exact h imb.deficit (imb.excess, []) (by simp)
  intro deficits
  induction deficits with
  | nil => intro st h; exact h
  | cons dp rest ih =>
      intro st h
      rw [List.foldl_cons]
      apply ih
      unfold balance_item_step
      cases hpick : pick_best_source st.1 dp.1 with
      | none => exact h
      | some bs =>
          dsimp only
          intro d hd
          rw [List.mem_append] at hd
          rcases hd with hd | hd
          · exact h d hd
          · rw [List.mem_singleton] at hd
            subst hd
            rfl

theorem foldl_append_acc {α β : Type} (g : α → List β) :
    ∀ (l : List α) (acc : List β),
      l.foldl (fun acc p => acc ++ g p) acc = acc ++ (l.map g).flatten := by
  intro l
  induction l with
  | nil => intro acc; simp
  | cons p rest ih =>
      intro acc
      rw [List.foldl_cons, ih, List.map_cons, List.flatten_cons,
        List.append_assoc]

theorem balance_inventory_eq (warehouses : Dict Warehouse) :
    balance_inventory warehouses
      = ((identify_inventory_imbalances warehouses).map
          (fun p => if p.2.excess.isEmpty || p.2.deficit.isEmpty then []
            else balance_item p.1 p.2)).flatten := by
  unfold balance_inventory
  have hfun : (fun (acc : List InventoryTransferDecision)
        (p : String × Imbalance) =>
      if p.2.excess.isEmpty || p.2.deficit.isEmpty then acc
      else acc ++ balance_item p.1 p.2)
    = fun acc p => acc
        ++ (if p.2.excess.isEmpty || p.2.deficit.isEmpty then []
          else balance_item p.1 p.2) := by
    funext acc p
    split
    · rw [List.append_nil]
    · rfl
  rw [hfun, foldl_append_acc]
  rfl

theorem drawnFromItem_flatten (ls : List (List InventoryTransferDecision))
    (iid sid : String) :
    drawnFromItem ls.flatten iid sid
      = (ls.map (fun l => drawnFromItem l iid sid)).sum := by
  induction ls with
  | nil => rfl
  | cons l rest ih =>
      rw [List.flatten_cons, drawnFromItem_append, List.map_cons,
        List.sum_cons, ih]

theorem insertItemInv_keys_sub {item_id wid : String} {it : InventoryItem} :
    ∀ (acc : Dict ItemInv) (x : String),
      x ∈ (insertItemInv acc item_id wid it).map Prod.fst →
      x ∈ acc.map Prod.fst ∨ x = item_id := by
  intro acc
  induction acc with
  | nil =>
      intro x hx
      right
      simpa [insertItemInv] using hx
  | cons p rest ih =>
      obtain ⟨k, v⟩ := p
      intro x hx
      unfold insertItemInv at hx
      by_cases hk : k == item_id
      · rw [if_pos hk] at hx
        rw [List.map_cons] at hx
        rcases List.mem_cons.mp hx with hx | hx
        · exact Or.inl (by rw [List.map_cons]; exact List.mem_cons.mpr (Or.inl hx))
        · exact Or.inl (by rw [List.map_cons]; exact List.mem_cons.mpr (Or.inr hx))
      · rw [if_neg hk] at hx
        rw [List.map_cons] at hx
        rcases List.mem_cons.mp hx with hx | hx
        · exact Or.inl (by rw [List.map_cons]; exact List.mem_cons.mpr (Or.inl hx))
        · rcases ih x hx with hin | heq
          · exact Or.inl (by rw [List.map_cons]; exact List.mem_cons.mpr (Or.inr hin))
          · exact Or.inr heq

theorem insertItemInv_keys_nodup {item_id wid : String} {it : InventoryItem} :
    ∀ {acc : Dict ItemInv}, (acc.map Prod.fst).Nodup →
      ((insertItemInv acc item_id wid it).map Prod.fst).Nodup := by
  intro acc
  induction acc with
  | nil =>
      intro _
      simp [insertItemInv]
  | cons p rest ih =>
      obtain ⟨k, v⟩ := p
      intro h
      rw [List.map_cons, List.nodup_cons] at h
      unfold insertItemInv
      by_cases hk : k == item_id
      · rw [if_pos hk, List.map_cons, List.nodup_cons]
        exact ⟨h.1, h.2⟩
      · rw [if_neg hk, List.map_cons, List.nodup_cons]
        refine ⟨?_, ih h.2⟩
        intro hmem
        rcases insertItemInv_keys_sub rest k hmem with hin | heq
        · exact h.1 hin
        · exact absurd heq (by simpa using hk)

theorem items_fold_keys_nodup (wid : String) :
    ∀ (items : Dict InventoryItem) (acc : Dict ItemInv),
      (acc.map Prod.fst).Nodup →
      ((items.foldl (fun acc2 q => insertItemInv acc2 q.1 wid q.2) acc).map
        Prod.fst).Nodup := by
  intro items
  induction items with
  | nil => intro acc h; exact h
  | cons q rest ih =>
      intro acc h
      rw [List.foldl_cons]
      exact ih _ (insertItemInv_keys_nodup h)

theorem collect_item_inventory_keys_nodup (warehouses : Dict Warehouse) :
    ((collect_item_inventory warehouses).map Prod.fst).Nodup := by
  unfold collect_item_inventory
  suffices h : ∀ (l : Dict Warehouse) (acc : Dict ItemInv),
      (acc.map Prod.fst).Nodup →
      ((l.foldl (fun acc p =>
        p.2.items.foldl (fun acc2 q => insertItemInv acc2 q.1 p.1 q.2) acc)
        acc).map Prod.fst).Nodup by
    exact h warehouses [] (by simp)
  intro l
  induction l with
  | nil => intro acc h; exact h
  | cons p rest ih =>
      intro acc h
      rw [List.foldl_cons]
      exact ih _ (items_fold_keys_nodup p.1 p.2.items acc h)

theorem keys_filterMap_sublist {α β : Type}
    (f : String × α → Option (String × β))
    (hf : ∀ p q, f p = some q → q.1 = p.1) :
    ∀ l : List (String × α),
      ((l.filterMap f).map Prod.fst).Sublist (l.map Prod.fst) := by
  intro l
  induction l with
  | nil => simp
  | cons p rest ih =>
      rw [List.filterMap_cons]
      cases hfp : f p with
      | none =>
          rw [List.map_cons]
          exact ih.cons _
      | some q =>
          rw [List.map_cons, List.map_cons, hf p q hfp]
          exact ih.cons₂ _

theorem identify_keys_nodup (warehouses : Dict Warehouse) :
    ((identify_inventory_imbalances warehouses).map Prod.fst).Nodup := by
  unfold identify_inventory_imbalances
  apply List.Nodup.sublist
  · apply keys_filterMap_sublist
    intro p q hq
    split at hq
    · exact absurd hq (by simp)
    · split at hq
      · exact absurd hq (by simp)
      · split at hq
        · exact absurd hq (by simp)
        · exact (congrArg Prod.fst (Option.some.inj hq)).symm
  · exact collect_item_inventory_keys_nodup warehouses

theorem drawn_flatten_unique {iid sid : String}
    (g : String × Imbalance → List InventoryTransferDecision)
    (hg : ∀ p : String × Imbalance, p.1 ≠ iid →
      drawnFromItem (g p) iid sid = 0) :
    ∀ (l : List (String × Imbalance)), (l.map Prod.fst).Nodup →
      ∀ imb : Imbalance, (iid, imb) ∈ l →
      ((l.map g).map (fun recs => drawnFromItem recs iid sid)).sum
        = drawnFromItem (g (iid, imb)) iid sid := by
  intro l
  induction l with
  | nil => intro _ imb h; cases h
  | cons p rest ih =>
      intro hnd imb hmem
      rw [List.map_cons, List.map_cons, List.sum_cons]
      rw [List.map_cons, List.nodup_cons] at hnd
      rcases List.mem_cons.mp hmem with heq | htail
      · rw [← heq]
        have hrest : ((rest.map g).map
            (fun recs => drawnFromItem recs iid sid)).sum = 0 := by
          apply List.sum_eq_zero
          intro x hx
          rw [List.map_map, List.mem_map] at hx
          obtain ⟨q, hq, hxe⟩ := hx
          rw [← hxe]
          apply hg
          intro hq1
          apply hnd.1
          have hp1 : p.1 = iid := by rw [← heq]
          rw [hp1, ← hq1]
          exact List.mem_map.mpr ⟨q, hq, rfl⟩
        rw [hrest, add_zero]
      · have hp1 : p.1 ≠ iid := by
          intro he
          apply hnd.1
          rw [he]
          exact List.mem_map.mpr ⟨(iid, imb), htail, rfl⟩
        rw [hg p hp1, zero_add]
        exact ih hnd.2 imb htail

/-- C4.  Within one rebalance call, the transfer decisions for one item
draw from one source warehouse at most that source's computed excess
amount: the in-place decrement of the remaining excess prevents
double-spending across the item's deficit warehouses. -/
theorem rebalance_no_double_spend
    (warehouses : Dict Warehouse) (iid sid : String) (imb : Imbalance)
    (amt : ℤ)
    (hmem : (iid, imb) ∈ identify_inventory_imbalances warehouses)
    (hsrc : lookup imb.excess sid = some amt) :
    drawnFromItem (balance_inventory warehouses) iid sid ≤ (amt : ℚ) := by
  obtain ⟨idata, hcol, _, _, hstruct, hexne, hdfne⟩ :=
    mem_identify_spec (p := (iid, imb)) hmem
  have hstruct' : imb = ⟨idata.name, idata.unit,
      excess_warehouses_of (avgRatioOf idata.warehouses) idata.warehouses,
      deficit_warehouses_of (avgRatioOf idata.warehouses) idata.warehouses⟩ :=
    hstruct
  have hsrcmem : (sid, amt) ∈ imb.excess := lookup_mem hsrc
  have hamt1 : 1 ≤ amt := by
    have hm2 : (sid, amt) ∈ excess_warehouses_of (avgRatioOf idata.warehouses)
        idata.warehouses := by
      rw [hstruct'] at hsrcmem
      exact hsrcmem
    obtain ⟨_, _, _, _, _, h1⟩ := (mem_excess_warehouses_iff _ _ _ _).mp hm2
    exact h1
  rw [balance_inventory_eq, drawnFromItem_flatten]
  have hzero : ∀ p : String × Imbalance, p.1 ≠ iid →
      drawnFromItem (if p.2.excess.isEmpty || p.2.deficit.isEmpty
        then ([] : List InventoryTransferDecision)
        else balance_item p.1 p.2) iid sid = 0 := by
    intro p hp
    split
    · rfl
    · apply drawnFromItem_eq_zero
      intro d hd
      rw [balance_item_items p.1 p.2 d hd]
      simpa using hp
  rw [drawn_flatten_unique _ hzero _ (identify_keys_nodup warehouses) imb hmem]
  have hif : (if ((iid, imb) : String × Imbalance).2.excess.isEmpty
        || ((iid, imb) : String × Imbalance).2.deficit.isEmpty
      then ([] : List InventoryTransferDecision)
      else balance_item ((iid, imb) : String × Imbalance).1
        ((iid, imb) : String × Imbalance).2) = balance_item iid imb := by
    rw [if_neg]
    simp only [hexne, hdfne, Bool.or_self, Bool.false_eq_true, not_false_eq_true]
  rw [hif]
  exact balance_item_drawn_le iid imb sid amt hsrc (by omega)

/-- The spec's own rebalancing scenario: item `x` at 50/100/200 in A
(ratio -1/2, deficit 50) and 180/100/200 in B (ratio 4/5, excess 50). -/
def imbalancedWarehouses : Dict Warehouse :=
  [ ("A", ⟨"A", "Alpha", "loc_a", 1000,
      [("x", ⟨"x", "X", "cat", 50, "u", 100, 200⟩)]⟩)
  , ("B", ⟨"B", "Beta", "loc_b", 1000,
      [("x", ⟨"x", "X", "cat", 180, "u", 100, 200⟩)]⟩) ]

theorem rebalance_no_double_spend_witness :
    drawnFromItem (balance_inventory imbalancedWarehouses) "x" "B"
      ≤ ((50 : ℤ) : ℚ) :=
  rebalance_no_double_spend imbalancedWarehouses "x" "B"
    ⟨"X", "u", [("B", 50)], [("A", 50)]⟩ 50
    (by
      have hcol : collect_item_inventory imbalancedWarehouses
          = [("x", ⟨"X", "u",
              [("A", ⟨50, 100, 200⟩), ("B", ⟨180, 100, 200⟩)]⟩)] := by
        simp [collect_item_inventory, imbalancedWarehouses, insertItemInv]
      have havg : avgRatioOf
          [("A", (⟨50, 100, 200⟩ : WhInv)), ("B", ⟨180, 100, 200⟩)] = 3/20 := by
        norm_num [avgRatioOf, validRatios, ratioOf, List.filterMap_cons]
      unfold identify_inventory_imbalances
      rw [hcol]
      simp only [List.filterMap_cons, List.filterMap_nil]
      rw [havg]
      norm_num [excess_warehouses_of, deficit_warehouses_of, pyInt,
        validRatios, ratioOf, List.filterMap_cons])
    (by simp [lookup])

/-! Schedule staggering: `decision_engine.py  _optimize_schedules` and
`_generate_staggered_schedules`. -/

/-- One staggered schedule entry. -/
structure Schedule where
  estimated_arrival : ℚ
  delivery_window_start : ℚ
  delivery_window_end : ℚ
  deriving DecidableEq, Repr

/-- A `schedule_adjustment` decision.  The Python `adjustment_id` string
`adj_{destination}_{date}` is carried as its two data, destination and
date. -/
structure ScheduleAdjustment where
  destination : String
  date : ℤ
  shipment_ids : List String
  new_schedules : List Schedule
  reason : String
  deriving DecidableEq, Repr

/-- Python dict-grouping: append `x` to the group keyed `k`, creating the
group at the end when absent. -/
def addToGroup {κ α : Type} [BEq κ] (acc : List (κ × List α)) (k : κ)
    (x : α) : List (κ × List α) :=
  match acc with
  | [] => [(k, [x])]
  | (k', xs) :: rest =>
      if k' == k then (k', xs ++ [x]) :: rest
      else (k', xs) :: addToGroup rest k x

/-- Group a list by a key, in iteration order (Python dict-of-lists). -/
def groupFold {κ α : Type} [BEq κ] (l : List α) (key : α → κ) :
    List (κ × List α) :=
  l.foldl (fun acc x => addToGroup acc (key x) x) []

/-- `sorted(shipments, key=priority, reverse=True)`'s comparison. -/
def prioGe (a b : Shipment) : Bool := decide (b.priority ≤ a.priority)

/-- Lines 863-869: start at 9 AM of the base time's date unless the base
time is later. -/
def staggerStart (base_time : ℚ) : ℚ :=
  if base_time > 24 * (⌊base_time / 24⌋ : ℤ) + 9 then base_time
  else 24 * (⌊base_time / 24⌋ : ℤ) + 9

/-- `decision_engine.py  _generate_staggered_schedules`: sort by priority
descending, base at the earliest ETA, start at the later of 9 AM and the
base, then 2-hour offsets with ±30-minute windows.  Python's `min` over
the ETAs raises on a group with no ETA; `_optimize_schedules` only passes
groups whose members all have one, and the `[]` branch mirrors that
unreachable case. -/
def generate_staggered_schedules (shipments : List Shipment) : List Schedule :=
  match ((shipments.mergeSort prioGe).filterMap
      Shipment.estimated_arrival).min? with
  | none => []
  | some base_time =>
      (List.range (shipments.mergeSort prioGe).length).map fun i : ℕ =>
        ⟨staggerStart base_time + 2 * (i : ℚ),
         staggerStart base_time + 2 * (i : ℚ) - 1/2,
         staggerStart base_time + 2 * (i : ℚ) + 1/2⟩

/-- `decision_engine.py  _optimize_schedules`: group active shipments by
destination, then by arrival date (shipments without an ETA are skipped),
and emit one adjustment per (destination, date) group of ≥ 2 shipments. -/
def optimize_schedules (active_shipments : Dict Shipment) :
    List ScheduleAdjustment :=
  (groupFold (active_shipments.map Prod.snd) Shipment.destination).foldl
    (fun acc dg =>
      if dg.2.length < 2 then acc
      else
        acc ++ (groupFold (dg.2.filter (fun s => s.estimated_arrival.isSome))
            (fun s => ⌊(s.estimated_arrival.getD 0) / 24⌋)).filterMap
          (fun dateg =>
            if 2 ≤ dateg.2.length then
              some ⟨dg.1, dateg.1, dateg.2.map Shipment.id,
                generate_staggered_schedules dateg.2,
                "optimize_receiving_operations"⟩
            else none))
    []

/-! Route consolidation: `decision_engine.py  _group_shipments_by_region`,
`_find_consolidation_candidates`, `_generate_optimized_routes`,
`_optimize_routes` and `optimize_logistics`. -/

/-- The fixed savings placeholder of `_generate_optimized_routes`. -/
structure Savings where
  distance_km : ℚ
  fuel_liters : ℚ
  time_hours : ℚ
  cost_usd : ℚ
  deriving DecidableEq, Repr

/-- A `route_optimization` recommendation.  The Python `optimization_id`
string carries the region and a wall-clock stamp; the region field
represents it. -/
structure RouteOptimization where
  region : String
  shipment_ids : List String
  optimized_routes : List String
  new_etas : List ℚ
  estimated_savings : Savings
  deriving DecidableEq, Repr

/-- `_group_shipments_by_region`'s key: the destination up to the first
underscore. -/
def regionOf (destination : String) : String :=
  (destination.splitOn "_").headD ""

def group_shipments_by_region (active_shipments : Dict Shipment) :
    List (String × List Shipment) :=
  groupFold (active_shipments.map Prod.snd) (fun s => regionOf s.destination)

/-- `_find_consolidation_candidates`: in-transit shipments with a known
ETA. -/
def find_consolidation_candidates (shipments : List Shipment) :
    List Shipment :=
  shipments.filter
    (fun s => decide (s.status = ShipmentStatus.in_transit)
      && s.estimated_arrival.isSome)

/-- `_generate_optimized_routes`: one `opt_route_{origin}_{destination}`
per shipment and a 10%-shortened remaining time to arrival, with a +8h
fallback for a shipment with no ETA (a Python datetime is always truthy,
so the fallback fires exactly on `None`); fixed savings estimate. -/
def generate_optimized_routes (now : ℚ) (shipments : List Shipment) :
    List String × List ℚ × Savings :=
  ( shipments.map (fun s => "opt_route_" ++ s.origin ++ "_" ++ s.destination)
  , shipments.map (fun s =>
      match s.estimated_arrival with
      | some eta => now + (eta - now) * (9/10)
      | none => now + 8)
  , ⟨120, 35, 5/2, 180⟩ )

/-- `_optimize_routes` (the route-conditions argument is passed through
unread in the source and is dropped here). -/
def optimize_routes (now : ℚ)
    (shipment_groups : List (String × List Shipment)) :
    List RouteOptimization :=
  shipment_groups.foldl
    (fun acc rg =>
      if rg.2.length < 2 then acc
      else if (find_consolidation_candidates rg.2).isEmpty then acc
      else if ((generate_optimized_routes now
          (find_consolidation_candidates rg.2)).1).isEmpty then acc
      else acc ++ [⟨rg.1,
        (find_consolidation_candidates rg.2).map Shipment.id,
        (generate_optimized_routes now (find_consolidation_candidates rg.2)).1,
        (generate_optimized_routes now (find_consolidation_candidates rg.2)).2.1,
        (generate_optimized_routes now (find_consolidation_candidates rg.2)).2.2⟩])
    []

/-- `decision_engine.py  optimize_logistics`: route optimizations, then
inventory rebalancing, then schedule adjustments.  The three decision
shapes are distinct types here, so the merged list is the triple. -/
def optimize_logistics (now : ℚ) (warehouses : Dict Warehouse)
    (active_shipments : Dict Shipment) :
    List RouteOptimization × List InventoryTransferDecision
      × List ScheduleAdjustment :=
  ( optimize_routes now (group_shipments_by_region active_shipments)
  , balance_inventory warehouses
  , optimize_schedules active_shipments )

theorem addToGroup_preserves {κ α : Type} [BEq κ] [LawfulBEq κ]
    {Q : κ → α → Prop} :
    ∀ (acc : List (κ × List α)) (k : κ) (x : α),
      (∀ ge ∈ acc, ∀ y ∈ ge.2, Q ge.1 y) → Q k x →
      ∀ ge ∈ addToGroup acc k x, ∀ y ∈ ge.2, Q ge.1 y := by
  intro acc
  induction acc with
  | nil =>
      intro k x _ hx ge hge y hy
      rw [show addToGroup [] k x = [(k, [x])] from rfl,
        List.mem_singleton] at hge
      subst hge
      rw [List.mem_singleton] at hy
      subst hy
      exact hx
  | cons p rest ih =>
      intro k x hacc hx ge hge y hy
      obtain ⟨k', xs⟩ := p
      unfold addToGroup at hge
      by_cases hk : (k' == k) = true
      · rw [if_pos hk] at hge
        rcases List.mem_cons.mp hge with hge | hge
        · subst hge
          dsimp only at hy ⊢
          rcases List.mem_append.mp hy with hy | hy
          · exact hacc (k', xs) (List.mem_cons_self _ _) y hy
          · rw [List.mem_singleton] at hy
            subst hy
            have hk' : k' = k := by simpa using hk
            rw [hk']
            exact hx
        · exact hacc ge (List.mem_cons_of_mem _ hge) y hy
      · rw [if_neg hk] at hge
        rcases List.mem_cons.mp hge with hge | hge
        · subst hge
          exact hacc (k', xs) (List.mem_cons_self _ _) y hy
        · exact ih k x (fun ge h => hacc ge (List.mem_cons_of_mem _ h)) hx
            ge hge y hy

theorem groupFold_fold_spec {κ α : Type} [BEq κ] [LawfulBEq κ] (key : α → κ)
    {P : α → Prop} :
    ∀ (l : List α) (acc : List (κ × List α)),
      (∀ x ∈ l, P x) →
      (∀ ge ∈ acc, ∀ y ∈ ge.2, P y ∧ key y = ge.1) →
      ∀ ge ∈ l.foldl (fun acc x => addToGroup acc (key x) x) acc,
        ∀ y ∈ ge.2, P y ∧ key y = ge.1 := by
  intro l
  induction l with
  | nil => intro acc _ hacc; exact hacc
  | cons z rest ih =>
      intro acc hl hacc
      rw [List.foldl_cons]
      apply ih
      · intro x hx
        exact hl x (List.mem_cons_of_mem _ hx)
      · exact addToGroup_preserves (Q := fun k y => P y ∧ key y = k)
          acc (key z) z hacc ⟨hl z (List.mem_cons_self _ _), rfl⟩

theorem groupFold_spec {κ α : Type} [BEq κ] [LawfulBEq κ] (key : α → κ)
    {P : α → Prop} (l : List α) (hl : ∀ x ∈ l, P x) :
    ∀ ge ∈ groupFold l key, ∀ y ∈ ge.2, P y ∧ key y = ge.1 := by
  unfold groupFold
  exact groupFold_fold_spec key l [] hl (by intro ge h; cases h)

theorem if_gt_eq_max (s b : ℚ) : (if b > s then b else s) = max s b := by
  rcases le_or_lt b s with h | h
  · rw [if_neg (not_lt.mpr h), max_eq_left h]
  · rw [if_pos h, max_eq_right h.le]

theorem staggerStart_eq_max (b : ℚ) :
    staggerStart b = max (24 * ((⌊b / 24⌋ : ℤ) : ℚ) + 9) b := by
  unfold staggerStart
  exact if_gt_eq_max _ b

/-- C6.  Every schedule-adjustment group has ≥ 2 shipments sharing a
destination and an arrival date; its schedules are assigned in
priority-descending order at exact 2-hour offsets from the later of 9 AM
on that date and the group's earliest ETA, so consecutive arrival times
differ by exactly 2 hours and the ±30-minute delivery windows are
pairwise disjoint. -/
theorem stagger_schedules_spec (active_shipments : Dict Shipment)
    (adj : ScheduleAdjustment)
    (hadj : adj ∈ optimize_schedules active_shipments) :
    ∃ (g : List Shipment) (emin : ℚ),
      2 ≤ g.length ∧
      adj.shipment_ids = g.map Shipment.id ∧
      adj.new_schedules = generate_staggered_schedules g ∧
      (∀ sh ∈ g, ∃ eta : ℚ, sh.estimated_arrival = some eta ∧
        ⌊eta / 24⌋ = adj.date) ∧
      ((g.mergeSort prioGe).filterMap Shipment.estimated_arrival).min?
        = some emin ∧
      ⌊emin / 24⌋ = adj.date ∧
      (g.mergeSort prioGe).Pairwise (fun a b => b.priority ≤ a.priority) ∧
      adj.new_schedules.length = g.length ∧
      (∀ (k : ℕ) (hk : k < adj.new_schedules.length),
        adj.new_schedules.get ⟨k, hk⟩ =
          ⟨max (24 * ((⌊emin / 24⌋ : ℤ) : ℚ) + 9) emin + 2 * k,
           max (24 * ((⌊emin / 24⌋ : ℤ) : ℚ) + 9) emin + 2 * k - 1/2,
           max (24 * ((⌊emin / 24⌋ : ℤ) : ℚ) + 9) emin + 2 * k + 1/2⟩) ∧
      (∀ (k : ℕ) (hk1 : k + 1 < adj.new_schedules.length),
        (adj.new_schedules.get ⟨k + 1, hk1⟩).estimated_arrival
          = (adj.new_schedules.get ⟨k, by omega⟩).estimated_arrival + 2) ∧
      (∀ (j k : ℕ) (hj : j < adj.new_schedules.length)
          (hk : k < adj.new_schedules.length), j ≠ k →
        (adj.new_schedules.get ⟨j, hj⟩).delivery_window_end
            < (adj.new_schedules.get ⟨k, hk⟩).delivery_window_start ∨
        (adj.new_schedules.get ⟨k, hk⟩).delivery_window_end
            < (adj.new_schedules.get ⟨j, hj⟩).delivery_window_start) := by
  unfold optimize_schedules at hadj
  rw [show (fun (acc : List ScheduleAdjustment)
        (dg : String × List Shipment) =>
      if dg.2.length < 2 then acc
      else acc ++ (groupFold (dg.2.filter (fun s => s.estimated_arrival.isSome))
          (fun s => ⌊(s.estimated_arrival.getD 0) / 24⌋)).filterMap
        (fun dateg =>
          if 2 ≤ dateg.2.length then
            some ⟨dg.1, dateg.1, dateg.2.map Shipment.id,
              generate_staggered_schedules dateg.2,
              "optimize_receiving_operations"⟩
          else none))
    = fun acc dg => acc
        ++ (if dg.2.length < 2 then []
          else (groupFold (dg.2.filter (fun s => s.estimated_arrival.isSome))
              (fun s => ⌊(s.estimated_arrival.getD 0) / 24⌋)).filterMap
            (fun dateg =>
              if 2 ≤ dateg.2.length then
                some ⟨dg.1, dateg.1, dateg.2.map Shipment.id,
                  generate_staggered_schedules dateg.2,
                  "optimize_receiving_operations"⟩
              else none))
    from by
      funext acc dg
      split
      · rw [List.append_nil]
      · rfl] at hadj
  rw [foldl_append_acc, List.nil_append, List.mem_flatten] at hadj
  obtain ⟨l0, hl0, hadjl0⟩ := hadj
  rw [List.mem_map] at hl0
  obtain ⟨dg, hdg, hl0e⟩ := hl0
  rw [← hl0e] at hadjl0
  by_cases hlt : dg.2.length < 2
  · rw [if_pos hlt] at hadjl0
    cases hadjl0
  rw [if_neg hlt] at hadjl0
  rw [List.mem_filterMap] at hadjl0
  obtain ⟨dateg, hdateg, hsome⟩ := hadjl0
  by_cases h2 : 2 ≤ dateg.2.length
  swap
  · rw [if_neg h2] at hsome
    cases hsome
  rw [if_pos h2] at hsome
  have hadjeq := Option.some.inj hsome
  -- group members: ETA present and matching date
  have hg : ∀ y ∈ dateg.2, y.estimated_arrival.isSome = true ∧
      ⌊(y.estimated_arrival.getD 0) / 24⌋ = dateg.1 := by
    intro y hy
    refine groupFold_spec (P := fun s => s.estimated_arrival.isSome = true)
      (fun s => ⌊(s.estimated_arrival.getD 0) / 24⌋)
      (dg.2.filter (fun s => s.estimated_arrival.isSome))
      ?_ dateg hdateg y hy
    intro x hx
    exact (List.mem_filter.mp hx).2
  -- the earliest ETA exists: the sorted stream of ETAs is non-empty
  have hlen2 : 2 ≤ dateg.2.length := h2
  have hnonempty : ((dateg.2.mergeSort prioGe).filterMap
      Shipment.estimated_arrival) ≠ [] := by
    intro hnil
    obtain ⟨s0, hs0mem⟩ := List.exists_mem_of_ne_nil dateg.2 (by
      intro h
      rw [h] at hlen2
      simp at hlen2)
    have hs0 : s0 ∈ dateg.2.mergeSort prioGe := List.mem_mergeSort.mpr hs0mem
    obtain ⟨hsome0, _⟩ := hg s0 hs0mem
    obtain ⟨eta0, heta0⟩ := Option.isSome_iff_exists.mp hsome0
    have hmm : eta0 ∈ (dateg.2.mergeSort prioGe).filterMap
        Shipment.estimated_arrival :=
      List.mem_filterMap.mpr ⟨s0, hs0, heta0⟩
    rw [hnil] at hmm
    cases hmm
  obtain ⟨emin, hemin⟩ : ∃ emin, ((dateg.2.mergeSort prioGe).filterMap
      Shipment.estimated_arrival).min? = some emin := by
    cases hmm : ((dateg.2.mergeSort prioGe).filterMap
        Shipment.estimated_arrival) with
    | nil => exact absurd hmm hnonempty
    | cons a as => exact ⟨as.foldl min a, rfl⟩
  -- the minimum is one of the group ETAs, so its date is the group date
  have hemin_date : ⌊emin / 24⌋ = dateg.1 := by
    have hmem := List.min?_mem min_choice hemin
    rw [List.mem_filterMap] at hmem
    obtain ⟨s0, hs0, heta0⟩ := hmem
    rw [List.mem_mergeSort] at hs0
    obtain ⟨_, hdate⟩ := hg s0 hs0
    rw [heta0] at hdate
    exact hdate
  have hgen : generate_staggered_schedules dateg.2
      = (List.range (dateg.2.mergeSort prioGe).length).map (fun i =>
          ⟨staggerStart emin + 2 * i,
           staggerStart emin + 2 * i - 1/2,
           staggerStart emin + 2 * i + 1/2⟩) := by
    unfold generate_staggered_schedules
    rw [hemin]
  have hsched : adj.new_schedules
      = (List.range (dateg.2.mergeSort prioGe).length).map (fun i =>
          ⟨staggerStart emin + 2 * i,
           staggerStart emin + 2 * i - 1/2,
           staggerStart emin + 2 * i + 1/2⟩) := by
    rw [← hadjeq]
    exact hgen
  have hslen : adj.new_schedules.length = dateg.2.length := by
    rw [hsched, List.length_map, List.length_range, List.length_mergeSort]
  have hget : ∀ (k : ℕ) (hk : k < adj.new_schedules.length),
      adj.new_schedules.get ⟨k, hk⟩ =
        ⟨staggerStart emin + 2 * k,
         staggerStart emin + 2 * k - 1/2,
         staggerStart emin + 2 * k + 1/2⟩ := by
    intro k hk
    rw [List.get_eq_getElem]
    simp only [hsched]
    rw [List.getElem_map, List.getElem_range]
  refine ⟨dateg.2, emin, h2, ?_, ?_, ?_, hemin, ?_, ?_, ?_, ?_, ?_, ?_⟩
  · rw [← hadjeq]
  · rw [← hadjeq]
  · intro sh hsh
    obtain ⟨hsome0, hdate⟩ := hg sh hsh
    obtain ⟨eta, heta⟩ := Option.isSome_iff_exists.mp hsome0
    refine ⟨eta, heta, ?_⟩
    rw [heta] at hdate
    rw [← hadjeq]
    exact hdate
  · rw [← hadjeq]
    exact hemin_date
  · refine List.Pairwise.imp ?_
      (@List.sorted_mergeSort Shipment prioGe ?_ ?_ dateg.2)
    · intro a b h
      simpa [prioGe] using h
    · intro a b c hab hbc
      simp only [prioGe, decide_eq_true_eq] at hab hbc ⊢
      omega
    · intro a b
      rcases le_total b.priority a.priority with h | h
      · simp [prioGe, h]
      · simp [prioGe, h]
  · exact hslen
  · intro k hk
    rw [hget k hk, staggerStart_eq_max]
  · intro k hk1
    rw [hget (k + 1) hk1, hget k (by omega)]
    dsimp only
    push_cast
    ring
  · intro j k hj hk hne
    rw [hget j hj, hget k hk]
    dsimp only
    rcases Nat.lt_or_ge j k with hlt | hge
    · left
      have : (j : ℚ) + 1 ≤ (k : ℚ) := by exact_mod_cast hlt
      linarith
    · right
      have hgt : k < j := by omega
      have : (k : ℚ) + 1 ≤ (j : ℚ) := by exact_mod_cast hgt
      linarith

/-! Scheduling fixtures: two shipments to one destination arriving on the
same calendar day, listed in priority-descending order. -/

def shipS2 : Shipment :=
  ⟨"s2", "warehouse_1", "warehouse_9", .in_transit, 7, "r2", some 40⟩

def shipS1 : Shipment :=
  ⟨"s1", "warehouse_2", "warehouse_9", .in_transit, 5, "r3", some 30⟩

def demoActiveS : Dict Shipment := [("s2", shipS2), ("s1", shipS1)]

def demoAdj : ScheduleAdjustment :=
  ⟨"warehouse_9", 1, ["s2", "s1"],
    generate_staggered_schedules [shipS2, shipS1],
    "optimize_receiving_operations"⟩

theorem stagger_schedules_spec_witness :
    ∃ (g : List Shipment) (emin : ℚ),
      2 ≤ g.length ∧
      demoAdj.shipment_ids = g.map Shipment.id ∧
      demoAdj.new_schedules = generate_staggered_schedules g ∧
      (∀ sh ∈ g, ∃ eta : ℚ, sh.estimated_arrival = some eta ∧
        ⌊eta / 24⌋ = demoAdj.date) ∧
      ((g.mergeSort prioGe).filterMap Shipment.estimated_arrival).min?
        = some emin ∧
      ⌊emin / 24⌋ = demoAdj.date ∧
      (g.mergeSort prioGe).Pairwise (fun a b => b.priority ≤ a.priority) ∧
      demoAdj.new_schedules.length = g.length ∧
      (∀ (k : ℕ) (hk : k < demoAdj.new_schedules.length),
        demoAdj.new_schedules.get ⟨k, hk⟩ =
          ⟨max (24 * ((⌊emin / 24⌋ : ℤ) : ℚ) + 9) emin + 2 * k,
           max (24 * ((⌊emin / 24⌋ : ℤ) : ℚ) + 9) emin + 2 * k - 1/2,
           max (24 * ((⌊emin / 24⌋ : ℤ) : ℚ) + 9) emin + 2 * k + 1/2⟩) ∧
      (∀ (k : ℕ) (hk1 : k + 1 < demoAdj.new_schedules.length),
        (demoAdj.new_schedules.get ⟨k + 1, hk1⟩).estimated_arrival
          = (demoAdj.new_schedules.get ⟨k, by omega⟩).estimated_arrival + 2) ∧
      (∀ (j k : ℕ) (hj : j < demoAdj.new_schedules.length)
          (hk : k < demoAdj.new_schedules.length), j ≠ k →
        (demoAdj.new_schedules.get ⟨j, hj⟩).delivery_window_end
            < (demoAdj.new_schedules.get ⟨k, hk⟩).delivery_window_start ∨
        (demoAdj.new_schedules.get ⟨k, hk⟩).delivery_window_end
            < (demoAdj.new_schedules.get ⟨j, hj⟩).delivery_window_start) :=
  stagger_schedules_spec demoActiveS demoAdj (by
    unfold optimize_schedules
    have hgrp : groupFold (demoActiveS.map Prod.snd) Shipment.destination
        = [("warehouse_9", [shipS2, shipS1])] := by
      simp [demoActiveS, groupFold, addToGroup, shipS2, shipS1]
    rw [hgrp]
    have h40 : (⌊(40 : ℚ) / 24⌋ : ℤ) = 1 := by norm_num
    have h30 : (⌊(30 : ℚ) / 24⌋ : ℤ) = 1 := by norm_num
    simp only [List.foldl_cons, List.foldl_nil]
    norm_num [groupFold, addToGroup, shipS2, shipS1, demoAdj,
      List.filterMap_cons])

theorem find_consolidation_candidates_mem {shipments : List Shipment}
    {s : Shipment} (h : s ∈ find_consolidation_candidates shipments) :
    s.status = ShipmentStatus.in_transit ∧ s.estimated_arrival.isSome = true := by
  unfold find_consolidation_candidates at h
  rw [List.mem_filter] at h
  have h2 := h.2
  simp only [Bool.and_eq_true, decide_eq_true_eq] at h2
  exact h2

/-- C10.  Within `optimize_logistics`, every consolidation candidate has
a known ETA (the candidate filter requires in-transit status and a
non-`None` estimated arrival), so the +8-hour fallback branch of
`_generate_optimized_routes` is never taken: every revised ETA is
`now + 0.9 * (eta - now)`. -/
theorem consolidation_etas_no_fallback
    (now : ℚ) (warehouses : Dict Warehouse) (active_shipments : Dict Shipment)
    (rec : RouteOptimization)
    (hrec : rec ∈ (optimize_logistics now warehouses active_shipments).1) :
    ∃ cands : List Shipment,
      rec.shipment_ids = cands.map Shipment.id ∧
      rec.new_etas.length = cands.length ∧
      (∀ sh ∈ cands, sh.status = ShipmentStatus.in_transit ∧
        sh.estimated_arrival.isSome = true) ∧
      (∀ (k : ℕ) (hk : k < cands.length) (hk2 : k < rec.new_etas.length),
        ∃ eta : ℚ, (cands.get ⟨k, hk⟩).estimated_arrival = some eta ∧
          rec.new_etas.get ⟨k, hk2⟩ = now + (eta - now) * (9/10)) := by
  have hrec2 : rec ∈ optimize_routes now
      (group_shipments_by_region active_shipments) := hrec
  unfold optimize_routes at hrec2
  rw [show (fun (acc : List RouteOptimization)
        (rg : String × List Shipment) =>
      if rg.2.length < 2 then acc
      else if (find_consolidation_candidates rg.2).isEmpty then acc
      else if ((generate_optimized_routes now
          (find_consolidation_candidates rg.2)).1).isEmpty then acc
      else acc ++ [⟨rg.1,
        (find_consolidation_candidates rg.2).map Shipment.id,
        (generate_optimized_routes now (find_consolidation_candidates rg.2)).1,
        (generate_optimized_routes now (find_consolidation_candidates rg.2)).2.1,
        (generate_optimized_routes now (find_consolidation_candidates rg.2)).2.2⟩])
    = fun acc rg => acc
        ++ (if rg.2.length < 2 then []
          else if (find_consolidation_candidates rg.2).isEmpty then []
          else if ((generate_optimized_routes now
              (find_consolidation_candidates rg.2)).1).isEmpty then []
          else [⟨rg.1,
            (find_consolidation_candidates rg.2).map Shipment.id,
            (generate_optimized_routes now (find_consolidation_candidates rg.2)).1,
            (generate_optimized_routes now (find_consolidation_candidates rg.2)).2.1,
            (generate_optimized_routes now (find_consolidation_candidates rg.2)).2.2⟩])
    from by
      funext acc rg
      split
      · rw [List.append_nil]
      · split
        · rw [List.append_nil]
        · split
          · rw [List.append_nil]
          · rfl] at hrec2
  rw [foldl_append_acc, List.nil_append, List.mem_flatten] at hrec2
  obtain ⟨l0, hl0, hrecl0⟩ := hrec2
  rw [List.mem_map] at hl0
  obtain ⟨rg, hrg, hl0e⟩ := hl0
  rw [← hl0e] at hrecl0
  by_cases hc1 : rg.2.length < 2
  · rw [if_pos hc1] at hrecl0
    cases hrecl0
  rw [if_neg hc1] at hrecl0
  by_cases hc2 : (find_consolidation_candidates rg.2).isEmpty
  · rw [if_pos hc2] at hrecl0
    cases hrecl0
  rw [if_neg hc2] at hrecl0
  by_cases hc3 : ((generate_optimized_routes now
      (find_consolidation_candidates rg.2)).1).isEmpty
  · rw [if_pos hc3] at hrecl0
    cases hrecl0
  rw [if_neg hc3] at hrecl0
  rw [List.mem_singleton] at hrecl0
  subst hrecl0
  refine ⟨find_consolidation_candidates rg.2, rfl, ?_, ?_, ?_⟩
  · show ((generate_optimized_routes now
        (find_consolidation_candidates rg.2)).2.1).length = _
    unfold generate_optimized_routes
    exact List.length_map _ _
  · intro sh hsh
    exact find_consolidation_candidates_mem hsh
  · intro k hk hk2
    have hmem : (find_consolidation_candidates rg.2).get ⟨k, hk⟩
        ∈ find_consolidation_candidates rg.2 := by
      rw [List.get_eq_getElem]
      exact List.getElem_mem _
    obtain ⟨eta, heta⟩ := Option.isSome_iff_exists.mp
      (find_consolidation_candidates_mem hmem).2
    refine ⟨eta, heta, ?_⟩
    show ((generate_optimized_routes now
        (find_consolidation_candidates rg.2)).2.1).get ⟨k, hk2⟩ = _
    simp only [List.get_eq_getElem] at heta ⊢
    unfold generate_optimized_routes
    dsimp only
    simp only [List.getElem_map]
    rw [heta]

/-! Consolidation fixtures: two in-transit shipments to one region. -/

def shipS3 : Shipment :=
  ⟨"s3", "warehouse_1", "warehouse_9", .in_transit, 5, "r4", some 10⟩

def shipS4 : Shipment :=
  ⟨"s4", "warehouse_2", "warehouse_9", .in_transit, 6, "r5", some 12⟩

def demoActiveC : Dict Shipment := [("s3", shipS3), ("s4", shipS4)]

def demoRouteOpt : RouteOptimization :=
  ⟨regionOf "warehouse_9",
   (find_consolidation_candidates [shipS3, shipS4]).map Shipment.id,
   (generate_optimized_routes 0 (find_consolidation_candidates [shipS3, shipS4])).1,
   (generate_optimized_routes 0 (find_consolidation_candidates [shipS3, shipS4])).2.1,
   (generate_optimized_routes 0 (find_consolidation_candidates [shipS3, shipS4])).2.2⟩

theorem consolidation_etas_no_fallback_witness :
    ∃ cands : List Shipment,
      demoRouteOpt.shipment_ids = cands.map Shipment.id ∧
      demoRouteOpt.new_etas.length = cands.length ∧
      (∀ sh ∈ cands, sh.status = ShipmentStatus.in_transit ∧
        sh.estimated_arrival.isSome = true) ∧
      (∀ (k : ℕ) (hk : k < cands.length)
          (hk2 : k < demoRouteOpt.new_etas.length),
        ∃ eta : ℚ, (cands.get ⟨k, hk⟩).estimated_arrival = some eta ∧
          demoRouteOpt.new_etas.get ⟨k, hk2⟩ = 0 + (eta - 0) * (9/10)) :=
  consolidation_etas_no_fallback 0 [] demoActiveC demoRouteOpt (by
    show demoRouteOpt ∈ optimize_routes 0 (group_shipments_by_region demoActiveC)
    have hgrp : group_shipments_by_region demoActiveC
        = [(regionOf "warehouse_9", [shipS3, shipS4])] := by
      simp [group_shipments_by_region, groupFold, addToGroup, demoActiveC,
        shipS3, shipS4]
    unfold optimize_routes
    rw [hgrp]
    simp only [List.foldl_cons, List.foldl_nil]
    norm_num [find_consolidation_candidates, generate_optimized_routes,
      demoRouteOpt, shipS3, shipS4])

end Logistics
